import Mathlib

/-!
Verification of the payment reconciliation engine of lit-server: the webhook
ingestion pipeline (status mapping, transition validation, idempotency,
payment mutation) and the settlement batch engine (`runSettlementPeriod`,
`simulateSettlement`, `logSettlementError`).

The relational state (tables `payments`, `payment_webhooks`,
`settlement_statements`, `settlement_items`, `settlement_logs`,
`settlement_errors`, `reservations`) is embedded as lists of rows; every
service call is a pure function from a `DB` to a `DB` plus a result.  A call
that commits returns the mutated state; a call that throws returns the
original state, because the services run every write inside one transaction
that is rolled back on error (all tables are InnoDB).  `DATETIME` values are
integers (seconds); JS numbers on the integer amounts involved are exact and
are embedded as `Int`/`ℚ`.
-/

deriving instance DecidableEq for Except

namespace LitServer

/-- Internal payment status vocabulary is the `payments.status` ENUM
(`PENDING`, `SUCCESS`, `FAILED`, `CANCELED`, `REFUNDED`); statuses are kept
as strings exactly as the code and schema handle them. -/
structure Payment where
  id : Nat
  store_id : String
  amount_total : Int
  status : String
  is_settled : Bool
  settlement_statement_id : Option Nat
  paid_at : Option Int
  pg_order_id : String
  pg_payment_key : Option String
  pg_method : String
  reservation_id : Option String
  canceled_at : Option Int
deriving DecidableEq, Repr

structure SettlementStatement where
  id : Nat
  store_id : String
  period_start : Int
  period_end : Int
  total_sales : Int
  commission_rate : ℚ
  commission_amount : Int
  payout_amount : Int
  status : String
  /-- the `meta` JSON column carries `paymentsCount`; its free-text note is
  not modelled. -/
  meta_paymentsCount : Nat
deriving DecidableEq, Repr

structure SettlementItem where
  statement_id : Nat
  payment_id : Nat
  amount : Int
deriving DecidableEq, Repr

structure SettlementLog where
  id : Nat
  period_start : Int
  period_end : Int
  status : String
  message : String
  error_message : Option String
  total_payments : Nat
  total_statements : Nat
  success_payments : Nat
  skipped_payments : Nat
  total_payout : Int
  total_commission : Int
deriving DecidableEq, Repr

structure SettlementError where
  settlement_log_id : Option Nat
  type : String
  payment_id : Option Nat
  store_id : Option String
  statement_id : Option Nat
  message : String
deriving DecidableEq, Repr

/-- One row of `payment_webhooks`.  The code generates a random string id;
the model uses a synthetic counter.  The raw JSON payload column is not
modelled.  `status` is nullable (`VARCHAR(30) NULL`): the webhook may omit
`data.status`. -/
structure PaymentWebhook where
  id : Nat
  payment_id : Nat
  pg_order_id : String
  pg_payment_key : Option String
  event_type : String
  status : Option String
  created_at : Int
deriving DecidableEq, Repr

/-- The reservation rows, only as far as the webhook cascade mutates them. -/
structure Reservation where
  id : String
  status : String
  payment_status : String
deriving DecidableEq, Repr

structure DB where
  payments : List Payment
  payment_webhooks : List PaymentWebhook
  settlement_statements : List SettlementStatement
  settlement_items : List SettlementItem
  settlement_logs : List SettlementLog
  settlement_errors : List SettlementError
  reservations : List Reservation
  /-- next AUTO_INCREMENT value of `settlement_statements.id` -/
  nextStatementId : Nat
  /-- next AUTO_INCREMENT value of `settlement_logs.id` -/
  nextLogId : Nat
  /-- synthetic counter standing in for the generated `payment_webhooks.id` -/
  nextWebhookSeq : Nat
deriving DecidableEq, Repr

/-! ### Status mapping and transition validation (webhookService) -/

/-- The value of a JS property read `obj[key]` on the `statusMap` object
literal: either an own string value (or the `||`-default string), or a
member inherited from `Object.prototype` — a truthy function/object. -/
inductive JsVal
  | str (s : String)
  | protoMember (name : String)
deriving DecidableEq, Repr

/-- The property names every object literal inherits from
`Object.prototype` (ECMAScript): reading them on `statusMap` yields a
truthy non-string value. -/
def objectPrototypeKeys : List String :=
  ["constructor", "hasOwnProperty", "isPrototypeOf", "propertyIsEnumerable",
   "toLocaleString", "toString", "valueOf", "__defineGetter__",
   "__defineSetter__", "__lookupGetter__", "__lookupSetter__", "__proto__"]

/-- `mapTossStatusToOurStatus(tossStatus)`:
`return statusMap[tossStatus] || 'PENDING';`.
A JS property read consults the object's own keys first and then
`Object.prototype`; an inherited member (e.g. `statusMap["toString"]`) is a
truthy function, so it short-circuits the `||` default. -/
def mapTossStatusToOurStatus (tossStatus : String) : JsVal :=
  if tossStatus == "READY" then .str "PENDING"
  else if tossStatus == "IN_PROGRESS" then .str "PENDING"
  else if tossStatus == "WAITING_FOR_DEPOSIT" then .str "PENDING"
  else if tossStatus == "DONE" then .str "SUCCESS"
  else if tossStatus == "CANCELED" then .str "CANCELED"
  else if tossStatus == "PARTIAL_CANCELED" then .str "CANCELED"
  else if tossStatus == "ABORTED" then .str "FAILED"
  else if tossStatus == "EXPIRED" then .str "FAILED"
  else if objectPrototypeKeys.contains tossStatus then .protoMember tossStatus
  else .str "PENDING"

/-- The own keys of the `statusMap` object literal. -/
def tossStatusTableKeys : List String :=
  ["READY", "IN_PROGRESS", "WAITING_FOR_DEPOSIT", "DONE", "CANCELED",
   "PARTIAL_CANCELED", "ABORTED", "EXPIRED"]

/-- `mapTossStatusToOurStatus(status)` where `status` may be `undefined`
(`data.status` absent): `statusMap[undefined]` coerces the key to the string
`"undefined"`, which is neither an own key nor a prototype member, so the
`||` default `'PENDING'` is returned. -/
def mapTossOpt (status : Option String) : JsVal :=
  match status with
  | some s => mapTossStatusToOurStatus s
  | none => .str "PENDING"

/-- The `validTransitions` adjacency object of `isValidStatusTransition`;
`none` models `validTransitions[currentStatus]` being `undefined`.
`currentStatus` always comes from the `payments.status` ENUM, so the
prototype-chain subtlety of `statusMap` cannot arise on the five real keys
and is not modelled here. -/
def validTransitions (currentStatus : String) : Option (List String) :=
  if currentStatus == "PENDING" then some ["SUCCESS", "FAILED", "CANCELED"]
  else if currentStatus == "SUCCESS" then some ["CANCELED", "REFUNDED"]
  else if currentStatus == "FAILED" then some []
  else if currentStatus == "CANCELED" then some []
  else if currentStatus == "REFUNDED" then some []
  else none

/-- `isValidStatusTransition(currentStatus, newStatus)`:
`return validTransitions[currentStatus]?.includes(newStatus) || false;`. -/
def isValidStatusTransition (currentStatus newStatus : String) : Bool :=
  match validTransitions currentStatus with
  | some l => l.contains newStatus
  | none => false

/-- `Array.prototype.includes` with a non-string argument (an inherited
`Object.prototype` member leaked out of `mapTossStatusToOurStatus`) is
`false` on the string arrays of `validTransitions`. -/
def isValidTransitionJs (currentStatus : String) (newStatus : JsVal) : Bool :=
  match newStatus with
  | .str n => isValidStatusTransition currentStatus n
  | .protoMember _ => false

/-! ### Webhook reconciler (webhookService) -/

/-- The destructured webhook body
`{ eventType, createdAt, data: { paymentKey, orderId, status, approvedAt,
totalAmount, method, cancels } }`; absent JSON fields are `none`.
`createdAt` and `cancels` are never read by the code. -/
structure WebhookData where
  eventType : Option String
  orderId : Option String
  status : Option String
  paymentKey : Option String
  approvedAt : Option Int
  totalAmount : Option Int
  method : Option String
deriving DecidableEq, Repr

structure WebhookResult where
  success : Bool
  message : String
deriving DecidableEq, Repr

/-- JS falsiness of a possibly-absent string: `undefined` and `""` are
falsy. -/
def jsFalsyS (o : Option String) : Bool :=
  match o with
  | none => true
  | some s => s == ""

/-- JS `o || d` on a possibly-absent string. -/
def jsOrS (o : Option String) (d : String) : String :=
  match o with
  | some s => if s == "" then d else s
  | none => d

/-- JS `o || d` on a possibly-absent number: `0` is falsy. -/
def jsOrI (o : Option Int) (d : Int) : Int :=
  match o with
  | some a => if a == 0 then d else a
  | none => d

/-- `checkWebhookIdempotency(connection, orderId, eventType, status)`:
matching rows of `payment_webhooks` with
`created_at >= DATE_SUB(NOW(), INTERVAL 1 HOUR)`.  The SQL comparison
`status = ?` is never true when either side is NULL. -/
def checkWebhookIdempotency (db : DB) (now : Int) (orderId eventType : String)
    (status : Option String) : Bool :=
  db.payment_webhooks.any fun w =>
    w.pg_order_id == orderId && w.event_type == eventType &&
      (match status, w.status with
       | some s, some ws => ws == s
       | _, _ => false) &&
      decide (now - 3600 ≤ w.created_at)

/-- `saveWebhookHistory(connection, webhookData)`: unconditional INSERT into
`payment_webhooks`. -/
def saveWebhookHistory (db : DB) (now : Int) (paymentId : Nat)
    (orderId : String) (paymentKey : Option String) (eventType : String)
    (status : Option String) : DB :=
  { db with
    payment_webhooks := db.payment_webhooks ++
      [{ id := db.nextWebhookSeq, payment_id := paymentId,
         pg_order_id := orderId, pg_payment_key := paymentKey,
         event_type := eventType, status := status, created_at := now }],
    nextWebhookSeq := db.nextWebhookSeq + 1 }

/-- `UPDATE payments SET ... WHERE id = ?`. -/
def updatePaymentRow (db : DB) (pid : Nat) (f : Payment → Payment) : DB :=
  { db with payments := db.payments.map fun q => if q.id == pid then f q else q }

/-- `UPDATE reservations SET ... WHERE id = ?`. -/
def updateReservationRow (db : DB) (rid : String)
    (f : Reservation → Reservation) : DB :=
  { db with
    reservations := db.reservations.map fun r => if r.id == rid then f r else r }

/-- `handlePaymentStatusChanged(connection, payment, data)`. -/
def handlePaymentStatusChanged (db : DB) (now : Int) (payment : Payment)
    (paymentKey : Option String) (status : Option String)
    (approvedAt : Option Int) (totalAmount : Option Int)
    (method : Option String) : DB :=
  let ourStatus := mapTossOpt status
  if ourStatus == .str "SUCCESS" then
    let db1 := updatePaymentRow db payment.id fun q =>
      { q with
        status := "SUCCESS",
        pg_payment_key := paymentKey,
        pg_method := jsOrS method payment.pg_method,
        amount_total := jsOrI totalAmount payment.amount_total,
        paid_at := some (match approvedAt with | some t => t | none => now) }
    match payment.reservation_id with
    | some rid =>
        updateReservationRow db1 rid fun r =>
          { r with status := "confirmed", payment_status := "paid" }
    | none => db1
  else if ourStatus == .str "FAILED" then
    let db1 := updatePaymentRow db payment.id fun q => { q with status := "FAILED" }
    match payment.reservation_id with
    | some rid =>
        updateReservationRow db1 rid fun r => { r with payment_status := "failed" }
    | none => db1
  else
    db

/-- `handlePaymentCanceled(connection, payment, data)`. -/
def handlePaymentCanceled (db : DB) (now : Int) (payment : Payment) : DB :=
  let db1 := updatePaymentRow db payment.id fun q =>
    { q with status := "CANCELED", canceled_at := some now }
  match payment.reservation_id with
  | some rid =>
      updateReservationRow db1 rid fun r =>
        { r with status := "canceled", payment_status := "refunded" }
  | none => db1

/-- `processWebhook(webhookData)` at wall-clock time `now`.  A thrown error
rolls the transaction back, so the paired state is the input state on the
`Except.error` paths and the committed state otherwise. -/
def processWebhook (db : DB) (now : Int) (wd : WebhookData) :
    DB × Except String WebhookResult :=
  if jsFalsyS wd.eventType || jsFalsyS wd.orderId then
    (db, .error "웹훅 필수 필드 누락")
  else
    let eventType := wd.eventType.getD ""
    let orderId := wd.orderId.getD ""
    match db.payments.find? (fun p => p.pg_order_id == orderId) with
    | none => (db, .error ("존재하지 않는 주문: " ++ orderId))
    | some payment =>
      if checkWebhookIdempotency db now orderId eventType wd.status then
        (db, .ok { success := true, message := "Already processed (idempotent)" })
      else
        let db1 := saveWebhookHistory db now payment.id orderId wd.paymentKey
          eventType wd.status
        let newStatus := mapTossOpt wd.status
        if !isValidTransitionJs payment.status newStatus then
          (db1, .ok { success := false, message := "Invalid status transition" })
        else
          let db2 :=
            if eventType == "PAYMENT_STATUS_CHANGED" then
              handlePaymentStatusChanged db1 now payment wd.paymentKey wd.status
                wd.approvedAt wd.totalAmount wd.method
            else if eventType == "PAYMENT_CANCELED" then
              handlePaymentCanceled db1 now payment
            else
              db1
          (db2, .ok { success := true, message := "Webhook processed successfully" })

/-! ### Settlement batch engine (settlementService v1.4) -/

/-- `const PLATFORM_COMMISSION_RATE = 0.2;` — the decimal literal `0.2`,
exact as the rational 2/10 (`PLATFORM_COMMISSION_RATE_eq` below). -/
def PLATFORM_COMMISSION_RATE : ℚ := mkRat 2 10

theorem PLATFORM_COMMISSION_RATE_eq : PLATFORM_COMMISSION_RATE = 0.2 := by
  unfold PLATFORM_COMMISSION_RATE
  rw [Rat.mkRat_eq_div]
  norm_num

/-- `Math.floor(totalSales * PLATFORM_COMMISSION_RATE)`: amounts are
`INT UNSIGNED` database integers, on which the JS double arithmetic is
embedded as exact rational arithmetic; multiplying by the exact rational
`0.2 = 1/5` is division by 5, and `Rat.floor` is the executable floor.
`commissionOf_floor` below identifies this definition with the source
formula `⌊totalSales * 0.2⌋`. -/
def commissionOf (totalSales : Int) : Int :=
  (mkRat totalSales 5).floor

theorem commissionOf_floor (n : Int) :
    commissionOf n = ⌊(n : ℚ) * 0.2⌋ := by
  unfold commissionOf
  rw [show mkRat n 5 = (n : ℚ) * 0.2 by rw [Rat.mkRat_eq_div]; norm_num; ring]
  rw [Rat.floor_def', Rat.floor_def]

theorem commissionOf_rate (n : Int) :
    commissionOf n = ⌊(n : ℚ) * PLATFORM_COMMISSION_RATE⌋ := by
  rw [commissionOf_floor, PLATFORM_COMMISSION_RATE_eq]

/-- The `WHERE` clause of the claim query:
`status = 'SUCCESS' AND is_settled = 0 AND paid_at >= ? AND paid_at < ?`
(a NULL `paid_at` satisfies neither comparison). -/
def isEligible (periodStart periodEnd : Int) (p : Payment) : Bool :=
  p.status == "SUCCESS" && p.is_settled == false &&
    (match p.paid_at with
     | some t => decide (periodStart ≤ t) && decide (t < periodEnd)
     | none => false)

/-- `SELECT id, store_id, amount_total, paid_at FROM payments WHERE ...
FOR UPDATE`.  The `ORDER BY store_id, paid_at` clause fixes only the
iteration order of the result set; it is not modelled because the
`Map`-based grouping below collects the same per-store groups for any row
order. -/
def selectEligible (db : DB) (periodStart periodEnd : Int) : List Payment :=
  db.payments.filter (isEligible periodStart periodEnd)

/-- Accumulating the keys of the JS `Map` built by
`for (const p of payments) storeMap.get(p.store_id).push(p)`:
a new key is appended the first time its store is seen. -/
def storeKeysAux : List Payment → List String → List String
  | [], _ => []
  | p :: rest, seen =>
    if seen.contains p.store_id then storeKeysAux rest seen
    else p.store_id :: storeKeysAux rest (p.store_id :: seen)

/-- The keys of the store `Map`, in first-insertion order. -/
def storeKeys (ps : List Payment) : List String :=
  storeKeysAux ps []

/-- The `Map` value for one store: all payments of the list with that
`store_id`, in list order. -/
def storeGroup (ps : List Payment) (k : String) : List Payment :=
  ps.filter (·.store_id == k)

/-- `storePayments.reduce((sum, p) => sum + p.amount_total, 0)`. -/
def groupTotal (ps : List Payment) (k : String) : Int :=
  ((storeGroup ps k).map (·.amount_total)).sum

/-- One element of the `settlements` array of the report
(`simulateSettlement` leaves `statementId: null`). -/
structure SettlementEntry where
  storeId : String
  statementId : Option Nat
  totalSales : Int
  commissionAmount : Int
  payoutAmount : Int
  paymentsCount : Nat
deriving DecidableEq, Repr

/-- The structured report returned by `runSettlementPeriod`.  The noop
return carries only `status`, `totalPayments`, `totalStatements` and
`settlements`; the fields the JS object leaves `undefined` there are
modelled as their zero defaults. -/
structure SettlementReport where
  status : String
  dryRun : Bool := false
  totalPayments : Nat
  totalStatements : Nat
  successPaymentCount : Nat := 0
  skippedPaymentCount : Nat := 0
  totalPayout : Int := 0
  totalCommission : Int := 0
  settlements : List SettlementEntry
deriving DecidableEq, Repr

structure SimulateResult where
  totalStatements : Nat
  settlements : List SettlementEntry
deriving DecidableEq, Repr

/-- `simulateSettlement(payments)` — the dryRun-only computation. -/
def simulateSettlement (payments : List Payment) : SimulateResult :=
  let settlements := (storeKeys payments).filterMap fun storeId =>
    let list := storeGroup payments storeId
    let totalSales := (list.map (·.amount_total)).sum
    if totalSales ≤ 0 then none
    else
      let commissionAmount := commissionOf totalSales
      let payoutAmount := totalSales - commissionAmount
      some { storeId := storeId, statementId := none, totalSales := totalSales,
             commissionAmount := commissionAmount, payoutAmount := payoutAmount,
             paymentsCount := list.length }
  { totalStatements := settlements.length, settlements := settlements }

/-- The environment a settlement run executes against: which SQL statements
fail, and which payments a concurrent process has already settled (making
the conditional `UPDATE ... WHERE id = ? AND is_settled = 0` report
`affectedRows = 0`). -/
structure RunEnv where
  /-- payment id ↦ a concurrent settlement already claimed this payment -/
  raceSettled : Nat → Bool
  /-- store id ↦ the `settlement_statements` INSERT throws -/
  statementInsertThrows : String → Bool
  /-- store id ↦ the INSERT succeeds but `result.insertId` is absent -/
  statementInsertNoId : String → Bool
  /-- payment id ↦ the `settlement_items` INSERT throws -/
  itemInsertThrows : Nat → Bool

/-- An environment where nothing fails and no concurrent run interferes. -/
def quietEnv : RunEnv :=
  { raceSettled := fun _ => false,
    statementInsertThrows := fun _ => false,
    statementInsertNoId := fun _ => false,
    itemInsertThrows := fun _ => false }

/-- `logSettlementError(connection, params)`: best-effort INSERT into
`settlement_errors`; an INSERT failure is swallowed (modelled as the INSERT
always succeeding on the draft state). -/
def logSettlementError (db : DB) (e : SettlementError) : DB :=
  { db with settlement_errors := db.settlement_errors ++ [e] }

/-- The row function of the conditional claim
`UPDATE payments SET is_settled = 1, settlement_statement_id = ?
WHERE id = ? AND is_settled = 0`. -/
def settleFun (statementId pid : Nat) (q : Payment) : Payment :=
  if q.id == pid && q.is_settled == false then
    { q with is_settled := true, settlement_statement_id := some statementId }
  else q

/-- The mutable loop state of `runSettlementPeriod`: the draft transaction
state plus the monitoring counters and the `settlementsResult` array. -/
structure RunAcc where
  db : DB
  successPaymentCount : Nat
  skippedPaymentCount : Nat
  totalCommission : Int
  totalPayout : Int
  settlements : List SettlementEntry

/-- The inner loop `for (const p of storePayments)` of one merchant group:
conditional UPDATE, race-skip on `affectedRows = 0`, `settlement_items`
INSERT only after a successful UPDATE, item INSERT failure fatal (the
`SettlementError` row logged before the throw dies with the rollback). -/
def processPayments (env : RunEnv) (logId statementId : Nat) (storeId : String) :
    List Payment → RunAcc → Except String RunAcc
  | [], acc => .ok acc
  | p :: rest, acc =>
    if env.raceSettled p.id then
      let db1 := logSettlementError acc.db
        { settlement_log_id := some logId, type := "PAYMENT_ALREADY_SETTLED",
          payment_id := some p.id, store_id := some storeId,
          statement_id := some statementId,
          message := "payments UPDATE affectedRows = 0 (이미 정산됨)" }
      processPayments env logId statementId storeId rest
        { acc with db := db1,
                   skippedPaymentCount := acc.skippedPaymentCount + 1 }
    else
      let db1 := { acc.db with
        payments := acc.db.payments.map (settleFun statementId p.id) }
      if env.itemInsertThrows p.id then
        .error "settlement_items INSERT 실패"
      else
        let db2 := { db1 with
          settlement_items := db1.settlement_items ++
            [{ statement_id := statementId, payment_id := p.id,
               amount := p.amount_total }] }
        processPayments env logId statementId storeId rest
          { acc with db := db2,
                     successPaymentCount := acc.successPaymentCount + 1 }

/-- The outer loop `for (const [storeId, storePayments] of
storeMap.entries())`: skip a non-positive group, INSERT the statement
(either failure mode fatal), accumulate the commission/payout counters,
process the group's payments, push the `settlementsResult` entry. -/
def processStores (env : RunEnv) (logId : Nat) (periodStart periodEnd : Int)
    (payments : List Payment) :
    List String → RunAcc → Except String RunAcc
  | [], acc => .ok acc
  | storeId :: rest, acc =>
    let storePayments := storeGroup payments storeId
    let totalSales := (storePayments.map (·.amount_total)).sum
    if totalSales ≤ 0 then
      processStores env logId periodStart periodEnd payments rest
        { acc with skippedPaymentCount :=
            acc.skippedPaymentCount + storePayments.length }
    else
      let commissionAmount := commissionOf totalSales
      let payoutAmount := totalSales - commissionAmount
      if env.statementInsertThrows storeId then
        .error "settlement_statements INSERT 실패"
      else if env.statementInsertNoId storeId then
        .error ("정산 명세 INSERT 실패: storeId=" ++ storeId)
      else
        let statementId := acc.db.nextStatementId
        let db1 := { acc.db with
          settlement_statements := acc.db.settlement_statements ++
            [{ id := statementId, store_id := storeId,
               period_start := periodStart, period_end := periodEnd,
               total_sales := totalSales,
               commission_rate := PLATFORM_COMMISSION_RATE,
               commission_amount := commissionAmount,
               payout_amount := payoutAmount, status := "pending",
               meta_paymentsCount := storePayments.length }],
          nextStatementId := acc.db.nextStatementId + 1 }
        let acc1 := { acc with db := db1,
                               totalCommission := acc.totalCommission + commissionAmount,
                               totalPayout := acc.totalPayout + payoutAmount }
        match processPayments env logId statementId storeId storePayments acc1 with
        | .error e => .error e
        | .ok acc2 =>
          processStores env logId periodStart periodEnd payments rest
            { acc2 with settlements := acc2.settlements ++
                [{ storeId := storeId, statementId := some statementId,
                   totalSales := totalSales,
                   commissionAmount := commissionAmount,
                   payoutAmount := payoutAmount,
                   paymentsCount := storePayments.length }] }

/-- `UPDATE settlement_logs SET ... WHERE id = ?`. -/
def updateLog (db : DB) (logId : Nat) (f : SettlementLog → SettlementLog) : DB :=
  let upd := fun l => if l.id == logId then f l else l
  { db with settlement_logs := db.settlement_logs.map upd }

/-- Step 0 of the batch: the skeleton `settlement_logs` INSERT in `noop`
placeholder state, obtaining the AUTO_INCREMENT run id. -/
def insertSkeletonLog (db : DB) (periodStart periodEnd : Int) : DB :=
  { db with
    settlement_logs := db.settlement_logs ++
      [{ id := db.nextLogId, period_start := periodStart, period_end := periodEnd,
         status := "noop", message := "정산 시작", error_message := none,
         total_payments := 0, total_statements := 0, success_payments := 0,
         skipped_payments := 0, total_payout := 0, total_commission := 0 }],
    nextLogId := db.nextLogId + 1 }

/-- The body of the transaction of `runSettlementPeriod` (everything between
`beginTransaction` and `commit`): skeleton log INSERT, `FOR UPDATE` claim
query, noop path, dryRun path, per-store settlement loop, final log
UPDATE. -/
def runSettlementBody (env : RunEnv) (db : DB) (periodStart periodEnd : Int)
    (dryRun : Bool) : Except String (DB × SettlementReport) :=
  let logId := db.nextLogId
  let db0 := insertSkeletonLog db periodStart periodEnd
  let payments := selectEligible db periodStart periodEnd
  let totalPayments := payments.length
  if payments.isEmpty then
    let db1 := updateLog db0 logId fun l =>
      { l with status := "noop", message := "정산 대상 없음", total_payments := 0 }
    .ok (db1, { status := "noop", totalPayments := 0, totalStatements := 0,
                settlements := [] })
  else if dryRun then
    let sim := simulateSettlement payments
    let db1 := updateLog db0 logId fun l =>
      { l with status := "success", message := "드라이런 완료",
               total_payments := totalPayments,
               total_statements := sim.totalStatements }
    .ok (db1, { status := "success", dryRun := true,
                totalPayments := totalPayments,
                totalStatements := sim.totalStatements,
                settlements := sim.settlements })
  else
    match processStores env logId periodStart periodEnd payments
        (storeKeys payments)
        { db := db0, successPaymentCount := 0, skippedPaymentCount := 0,
          totalCommission := 0, totalPayout := 0, settlements := [] } with
    | .error e => .error e
    | .ok acc =>
      let db1 := updateLog acc.db logId fun l =>
        { l with status := "success", message := "정산 완료",
                 total_payments := totalPayments,
                 total_statements := acc.settlements.length,
                 success_payments := acc.successPaymentCount,
                 skipped_payments := acc.skippedPaymentCount,
                 total_payout := acc.totalPayout,
                 total_commission := acc.totalCommission }
      .ok (db1, { status := "success", totalPayments := totalPayments,
                  totalStatements := acc.settlements.length,
                  successPaymentCount := acc.successPaymentCount,
                  skippedPaymentCount := acc.skippedPaymentCount,
                  totalPayout := acc.totalPayout,
                  totalCommission := acc.totalCommission,
                  settlements := acc.settlements })

/-- `runSettlementPeriod({ periodStart, periodEnd, dryRun })`.  Validation
(`periodEnd <= periodStart`) throws before any I/O.  On an unhandled
exception the catch block runs
`UPDATE settlement_logs SET status='failed', error_message=...` on the same
connection inside the still-open transaction and then calls
`connection.rollback()`, which undoes that UPDATE together with the skeleton
log INSERT and every other write of the run — so the post-state of a failed
run is exactly the initial state. -/
def runSettlementPeriod (env : RunEnv) (db : DB) (periodStart periodEnd : Int)
    (dryRun : Bool) : DB × Except String SettlementReport :=
  if periodEnd ≤ periodStart then
    (db, .error "periodEnd 는 periodStart 보다 이후여야 합니다.")
  else
    match runSettlementBody env db periodStart periodEnd dryRun with
    | .ok (db1, report) => (db1, .ok report)
    | .error e => (db, .error e)

/-! ### Derived notions used by the statements below -/

/-- Sum of the `settlement_items.amount` linked to one statement id. -/
def itemsSum (db : DB) (sid : Nat) : Int :=
  ((db.settlement_items.filter (fun it => it.statement_id == sid)).map (·.amount)).sum

/-- Total amount of the payments of a list that lose the conditional-update
race (`affectedRows = 0`). -/
def racedAmount (env : RunEnv) (ps : List Payment) : Int :=
  ((ps.filter (fun p => env.raceSettled p.id)).map (·.amount_total)).sum

/-- Number of payments of a list that lose the conditional-update race. -/
def racedCount (env : RunEnv) (ps : List Payment) : Nat :=
  ps.countP (fun p => env.raceSettled p.id)

/-- What one run adds to `skippedPaymentCount`: every payment of a
non-positive group, plus every race-lost payment of a positive group. -/
def skippedOf (env : RunEnv) (payments : List Payment) (keys : List String) : Nat :=
  (keys.map (fun k =>
    if groupTotal payments k ≤ 0 then (storeGroup payments k).length
    else racedCount env (storeGroup payments k))).sum

/-- `simulateSettlement`-shaped entries over an explicit key list. -/
def simEntries (payments : List Payment) (keys : List String) : List SettlementEntry :=
  keys.filterMap fun storeId =>
    let list := storeGroup payments storeId
    let totalSales := (list.map (·.amount_total)).sum
    if totalSales ≤ 0 then none
    else
      let commissionAmount := commissionOf totalSales
      let payoutAmount := totalSales - commissionAmount
      some { storeId := storeId, statementId := none, totalSales := totalSales,
             commissionAmount := commissionAmount, payoutAmount := payoutAmount,
             paymentsCount := list.length }

/-- Forget the `statementId` a committed run records in its report entries,
for comparison with the dry-run entries. -/
def dropStatementId (en : SettlementEntry) : SettlementEntry :=
  { en with statementId := none }

/-- The per-row effect of one merchant group's conditional updates, in group
order. -/
def chainSettle (env : RunEnv) (statementId : Nat) (ps : List Payment)
    (q : Payment) : Payment :=
  ps.foldl (fun r p => if env.raceSettled p.id then r else settleFun statementId p.id r) q

/-- The per-row effect of the whole store loop, threading the
AUTO_INCREMENT statement id through the positive groups. -/
def chainStores (env : RunEnv) (payments : List Payment) :
    List String → Nat → Payment → Payment
  | [], _, q => q
  | k :: rest, sid, q =>
    let g := storeGroup payments k
    if (g.map (·.amount_total)).sum ≤ 0 then
      chainStores env payments rest sid q
    else
      chainStores env payments rest (sid + 1) (chainSettle env sid g q)

/-- Number of positive groups: how often the store loop consumes a new
statement id. -/
def posKeyCount (payments : List Payment) (keys : List String) : Nat :=
  keys.countP (fun k => !decide (groupTotal payments k ≤ 0))

/-! ### Concrete fixtures for counterexamples and witnesses -/

/-- An unsettled SUCCESS payment row, as the checkout flow creates it and a
DONE webhook confirms it. -/
def mkPayment (id : Nat) (store : String) (amt : Int) (paidAt : Int) : Payment :=
  { id := id, store_id := store, amount_total := amt, status := "SUCCESS",
    is_settled := false, settlement_statement_id := none, paid_at := some paidAt,
    pg_order_id := "ORD" ++ toString id, pg_payment_key := some "PK",
    pg_method := "CARD", reservation_id := none, canceled_at := none }

def emptyDB : DB :=
  { payments := [], payment_webhooks := [], settlement_statements := [],
    settlement_items := [], settlement_logs := [], settlement_errors := [],
    reservations := [], nextStatementId := 1, nextLogId := 1,
    nextWebhookSeq := 1 }

/-- Two unsettled SUCCESS payments of one merchant inside the window
`[0, 100)` — the concrete scenario of spec §8. -/
def twoPaymentDB : DB :=
  { emptyDB with payments := [mkPayment 1 "M" 15000 10, mkPayment 2 "M" 25000 20] }

/-- A concurrent settlement claims payment 2 between the snapshot and the
conditional update. -/
def raceOnP2Env : RunEnv := { quietEnv with raceSettled := fun i => i == 2 }

/-- The `settlement_statements` INSERT for store `"M"` reports no
`insertId`. -/
def noIdOnMEnv : RunEnv := { quietEnv with statementInsertNoId := fun k => k == "M" }

/-- One SUCCESS payment of amount 0 inside the window: schema-valid
(`amount_total INT UNSIGNED`, reservations default `price` to 0). -/
def zeroAmountDB : DB := { emptyDB with payments := [mkPayment 1 "Z" 0 10] }

/-- A PENDING payment awaiting its gateway webhook, linked to a
reservation. -/
def pendingPayment : Payment :=
  { id := 7, store_id := "M", amount_total := 5000, status := "PENDING",
    is_settled := false, settlement_statement_id := none, paid_at := none,
    pg_order_id := "ORD7", pg_payment_key := none, pg_method := "UNKNOWN",
    reservation_id := some "res1", canceled_at := none }

def webhookDB : DB :=
  { emptyDB with
    payments := [pendingPayment],
    reservations := [{ id := "res1", status := "pending", payment_status := "pending" }] }

/-- A DONE status-changed webhook for order `ORD7`. -/
def doneWebhook : WebhookData :=
  { eventType := some "PAYMENT_STATUS_CHANGED", orderId := some "ORD7",
    status := some "DONE", paymentKey := some "PK", approvedAt := some 50,
    totalAmount := some 5000, method := some "CARD" }

/-- A payment already FAILED. -/
def failedPayment : Payment :=
  { pendingPayment with id := 8, pg_order_id := "ORD8", status := "FAILED",
                        reservation_id := none }

def failedPaymentDB : DB := { emptyDB with payments := [failedPayment] }

/-- A DONE webhook for the FAILED payment's order. -/
def doneWebhookForFailed : WebhookData :=
  { eventType := some "PAYMENT_STATUS_CHANGED", orderId := some "ORD8",
    status := some "DONE", paymentKey := none, approvedAt := none,
    totalAmount := none, method := none }

/-! ### Helper lemmas -/

theorem settleFun_id (stId pid : Nat) (q : Payment) :
    (settleFun stId pid q).id = q.id := by
  unfold settleFun; split <;> rfl

theorem settleFun_store (stId pid : Nat) (q : Payment) :
    (settleFun stId pid q).store_id = q.store_id := by
  unfold settleFun; split <;> rfl

theorem settleFun_miss {stId pid : Nat} {q : Payment} (h : pid ≠ q.id) :
    settleFun stId pid q = q := by
  unfold settleFun
  rw [if_neg]
  simp only [Bool.and_eq_true, beq_iff_eq, not_and]
  intro hc
  exact absurd hc.symm h

theorem settleFun_already {stId pid : Nat} {q : Payment} (h : q.is_settled = true) :
    settleFun stId pid q = q := by
  unfold settleFun
  rw [if_neg]
  simp [h]

theorem settleFun_hit {stId pid : Nat} {q : Payment} (hid : pid = q.id)
    (hq : q.is_settled = false) :
    settleFun stId pid q =
      { q with is_settled := true, settlement_statement_id := some stId } := by
  unfold settleFun
  rw [if_pos]
  simp [hid, hq]

theorem chainSettle_nil (env : RunEnv) (stId : Nat) (q : Payment) :
    chainSettle env stId [] q = q := rfl

theorem chainSettle_cons (env : RunEnv) (stId : Nat) (p : Payment)
    (rest : List Payment) (q : Payment) :
    chainSettle env stId (p :: rest) q =
      chainSettle env stId rest
        (if env.raceSettled p.id then q else settleFun stId p.id q) := rfl

theorem chainSettle_id (env : RunEnv) (stId : Nat) (q : Payment) :
    ∀ ps : List Payment, (chainSettle env stId ps q).id = q.id := by
  intro ps
  induction ps generalizing q with
  | nil => rfl
  | cons p rest ih =>
    rw [chainSettle_cons]
    by_cases hr : env.raceSettled p.id
    · rw [if_pos hr]; exact ih q
    · rw [if_neg hr, ih (settleFun stId p.id q)]; exact settleFun_id stId p.id q

theorem chainSettle_settled (env : RunEnv) (stId : Nat) {q : Payment}
    (hq : q.is_settled = true) :
    ∀ ps : List Payment, chainSettle env stId ps q = q := by
  intro ps
  induction ps with
  | nil => rfl
  | cons p rest ih =>
    rw [chainSettle_cons]
    by_cases hr : env.raceSettled p.id
    · rw [if_pos hr]; exact ih
    · rw [if_neg hr, settleFun_already hq]; exact ih

theorem chainSettle_untouched (env : RunEnv) (stId : Nat) {q : Payment} :
    ∀ ps : List Payment,
      (∀ p ∈ ps, env.raceSettled p.id = false → p.id ≠ q.id) →
      chainSettle env stId ps q = q := by
  intro ps
  induction ps with
  | nil => intro _; rfl
  | cons p rest ih =>
    intro h
    rw [chainSettle_cons]
    by_cases hr : env.raceSettled p.id
    · rw [if_pos hr]; exact ih fun x hx => h x (List.mem_cons_of_mem p hx)
    · rw [if_neg hr]
      have hne : p.id ≠ q.id := h p (List.mem_cons_self p rest) (by simp [hr])
      rw [settleFun_miss hne]
      exact ih fun x hx => h x (List.mem_cons_of_mem p hx)

theorem chainSettle_hit (env : RunEnv) (stId : Nat) {q p : Payment}
    (hq : q.is_settled = false) (hpq : p.id = q.id)
    (hrace : env.raceSettled p.id = false) :
    ∀ ps : List Payment, p ∈ ps → (ps.map (·.id)).Nodup →
      chainSettle env stId ps q =
        { q with is_settled := true, settlement_statement_id := some stId } := by
  intro ps
  induction ps with
  | nil => intro hmem; cases hmem
  | cons a rest ih =>
    intro hmem hnd
    rw [chainSettle_cons]
    rcases List.mem_cons.mp hmem with rfl | hrest
    · rw [if_neg (by simp [hrace])]
      rw [settleFun_hit hpq hq]
      exact chainSettle_settled env stId rfl rest
    · have hane : a.id ≠ q.id := by
        intro hcontra
        have : a.id ∉ rest.map (·.id) := by
          simp only [List.map_cons, List.nodup_cons] at hnd
          exact hnd.1
        exact this (hcontra ▸ hpq ▸ List.mem_map_of_mem (·.id) hrest)
      by_cases hr : env.raceSettled a.id
      · rw [if_pos hr]
        exact ih hrest (by simp only [List.map_cons, List.nodup_cons] at hnd; exact hnd.2)
      · rw [if_neg hr, settleFun_miss hane]
        exact ih hrest (by simp only [List.map_cons, List.nodup_cons] at hnd; exact hnd.2)

/-- Splitting the sum of mapped values along a Boolean filter. -/
theorem sum_map_filter_split (f : Payment → Int) (p : Payment → Bool) :
    ∀ l : List Payment,
      ((l.filter p).map f).sum + ((l.filter (fun a => !p a)).map f).sum
        = (l.map f).sum := by
  intro l
  induction l with
  | nil => rfl
  | cons a rest ih =>
    by_cases hp : p a
    · simp only [List.filter_cons, hp, Bool.not_true, List.map_cons,
        List.sum_cons, if_true, Bool.false_eq_true, if_false]
      omega
    · have hp' : p a = false := by
        cases hpa : p a
        · rfl
        · exact absurd hpa hp
      simp only [List.filter_cons, hp', Bool.not_false, List.map_cons,
        List.sum_cons, if_true, Bool.false_eq_true, if_false]
      omega

/-- In a table whose `id` column is a primary key, selecting by the id of a
present row returns exactly that row. -/
theorem filter_ids_single {l : List Payment}
    (hnd : (l.map (·.id)).Nodup) {p : Payment} (hp : p ∈ l) :
    l.filter (fun q => q.id == p.id) = [p] := by
  induction l with
  | nil => cases hp
  | cons a rest ih =>
    simp only [List.map_cons, List.nodup_cons] at hnd
    rcases List.mem_cons.mp hp with rfl | hrest
    · rw [List.filter_cons_of_pos (by simp)]
      have : rest.filter (fun q => q.id == p.id) = [] := by
        rw [List.filter_eq_nil_iff]
        intro q hq hcontra
        exact hnd.1 ((beq_iff_eq.mp hcontra) ▸ List.mem_map_of_mem (·.id) hq)
      rw [this]
    · have hane : a.id ≠ p.id := by
        intro hcontra
        exact hnd.1 (hcontra ▸ List.mem_map_of_mem (·.id) hrest)
      rw [List.filter_cons_of_neg (by simp [hane])]
      exact ih hnd.2 hrest

/-- Members with equal ids are equal when the ids are without duplicates. -/
theorem eq_of_mem_of_id_eq {l : List Payment}
    (hnd : (l.map (·.id)).Nodup) {p q : Payment}
    (hp : p ∈ l) (hq : q ∈ l) (hid : p.id = q.id) : p = q :=
  List.inj_on_of_nodup_map hnd hp hq hid

/-- Every payment's store id appears among the `Map` keys. -/
theorem store_mem_storeKeysAux {p : Payment} :
    ∀ (ps : List Payment) (seen : List String), p ∈ ps →
      p.store_id ∈ storeKeysAux ps seen ∨ seen.contains p.store_id = true := by
  intro ps
  induction ps with
  | nil => intro seen h; cases h
  | cons a rest ih =>
    intro seen hmem
    rcases List.mem_cons.mp hmem with rfl | hrest
    · by_cases hs : seen.contains p.store_id
      · exact Or.inr hs
      · left
        rw [storeKeysAux, if_neg hs]
        exact List.mem_cons_self _ _
    · by_cases hs : seen.contains a.store_id
      · rw [storeKeysAux, if_pos hs]
        exact ih seen hrest
      · rw [storeKeysAux, if_neg hs]
        rcases ih (a.store_id :: seen) hrest with h | h
        · exact Or.inl (List.mem_cons_of_mem _ h)
        · simp only [List.contains_cons, Bool.or_eq_true] at h
          rcases h with h | h
          · exact Or.inl (by rw [beq_iff_eq.mp h]; exact List.mem_cons_self _ _)
          · exact Or.inr h

theorem store_mem_storeKeys {p : Payment} {ps : List Payment} (hp : p ∈ ps) :
    p.store_id ∈ storeKeys ps := by
  rcases store_mem_storeKeysAux ps [] hp with h | h
  · exact h
  · cases h

/-! ### Behaviour of the inner payment loop -/

theorem processPayments_payments {env : RunEnv} {logId stId : Nat} {sk : String} :
    ∀ {ps : List Payment} {acc acc2 : RunAcc},
      processPayments env logId stId sk ps acc = .ok acc2 →
      acc2.db.payments = acc.db.payments.map (chainSettle env stId ps) := by
  intro ps
  induction ps with
  | nil =>
    intro acc acc2 h
    simp only [processPayments, Except.ok.injEq] at h
    subst h
    exact (List.map_id'' (fun q => chainSettle_nil env stId q) _).symm
  | cons p rest ih =>
    intro acc acc2 h
    simp only [processPayments] at h
    by_cases hr : env.raceSettled p.id
    · rw [if_pos hr] at h
      rw [ih h]
      simp only [logSettlementError]
      exact List.map_congr_left fun q _ => by rw [chainSettle_cons, if_pos hr]
    · rw [if_neg hr] at h
      by_cases hi : env.itemInsertThrows p.id
      · rw [if_pos hi] at h; exact absurd h (by simp)
      · rw [if_neg hi] at h
        rw [ih h]
        simp only [List.map_map]
        exact List.map_congr_left fun q _ => by
          rw [chainSettle_cons, if_neg hr]; rfl

theorem processPayments_frame {env : RunEnv} {logId stId : Nat} {sk : String} :
    ∀ {ps : List Payment} {acc acc2 : RunAcc},
      processPayments env logId stId sk ps acc = .ok acc2 →
      acc2.db.settlement_statements = acc.db.settlement_statements ∧
      acc2.db.settlement_logs = acc.db.settlement_logs ∧
      acc2.db.nextStatementId = acc.db.nextStatementId ∧
      acc2.db.nextLogId = acc.db.nextLogId ∧
      acc2.settlements = acc.settlements ∧
      acc2.totalCommission = acc.totalCommission ∧
      acc2.totalPayout = acc.totalPayout := by
  intro ps
  induction ps with
  | nil =>
    intro acc acc2 h
    simp only [processPayments, Except.ok.injEq] at h
    subst h
    exact ⟨rfl, rfl, rfl, rfl, rfl, rfl, rfl⟩
  | cons p rest ih =>
    intro acc acc2 h
    simp only [processPayments] at h
    by_cases hr : env.raceSettled p.id
    · rw [if_pos hr] at h
      have hh := ih h
      exact hh
    · rw [if_neg hr] at h
      by_cases hi : env.itemInsertThrows p.id
      · rw [if_pos hi] at h; exact absurd h (by simp)
      · rw [if_neg hi] at h
        have hh := ih h
        exact hh

theorem processPayments_items {env : RunEnv} {logId stId : Nat} {sk : String} :
    ∀ {ps : List Payment} {acc acc2 : RunAcc},
      processPayments env logId stId sk ps acc = .ok acc2 →
      acc2.db.settlement_items = acc.db.settlement_items ++
        ps.filterMap (fun p =>
          if env.raceSettled p.id then none
          else some { statement_id := stId, payment_id := p.id,
                      amount := p.amount_total }) := by
  intro ps
  induction ps with
  | nil =>
    intro acc acc2 h
    simp only [processPayments, Except.ok.injEq] at h
    subst h
    simp
  | cons p rest ih =>
    intro acc acc2 h
    simp only [processPayments] at h
    by_cases hr : env.raceSettled p.id
    · rw [if_pos hr] at h
      rw [ih h]
      simp only [logSettlementError]
      rw [List.filterMap_cons_none (by rw [if_pos hr])]
    · rw [if_neg hr] at h
      by_cases hi : env.itemInsertThrows p.id
      · rw [if_pos hi] at h; exact absurd h (by simp)
      · rw [if_neg hi] at h
        rw [ih h]
        rw [List.filterMap_cons_some (by rw [if_neg hr])]
        simp

theorem processPayments_counters {env : RunEnv} {logId stId : Nat} {sk : String} :
    ∀ {ps : List Payment} {acc acc2 : RunAcc},
      processPayments env logId stId sk ps acc = .ok acc2 →
      acc2.skippedPaymentCount = acc.skippedPaymentCount + racedCount env ps ∧
      acc2.successPaymentCount = acc.successPaymentCount +
        ps.countP (fun p => !env.raceSettled p.id) := by
  intro ps
  induction ps with
  | nil =>
    intro acc acc2 h
    simp only [processPayments, Except.ok.injEq] at h
    subst h
    simp [racedCount]
  | cons p rest ih =>
    intro acc acc2 h
    simp only [processPayments] at h
    by_cases hr : env.raceSettled p.id
    · rw [if_pos hr] at h
      obtain ⟨h1, h2⟩ := ih h
      refine ⟨?_, ?_⟩
      · rw [h1]
        simp only [racedCount, List.countP_cons, hr, if_pos]
        omega
      · rw [h2]
        simp only [List.countP_cons, hr]
        simp
    · rw [if_neg hr] at h
      by_cases hi : env.itemInsertThrows p.id
      · rw [if_pos hi] at h; exact absurd h (by simp)
      · rw [if_neg hi] at h
        obtain ⟨h1, h2⟩ := ih h
        refine ⟨?_, ?_⟩
        · rw [h1]
          simp only [racedCount, List.countP_cons]
          simp [hr]
        · rw [h2]
          simp only [List.countP_cons]
          simp [hr]
          omega

/-! ### Behaviour of the composed per-row effect of the store loop -/

theorem chainStores_nil (env : RunEnv) (payments : List Payment) (sid : Nat)
    (q : Payment) : chainStores env payments [] sid q = q := rfl

theorem chainStores_cons (env : RunEnv) (payments : List Payment) (k : String)
    (rest : List String) (sid : Nat) (q : Payment) :
    chainStores env payments (k :: rest) sid q =
      (if ((storeGroup payments k).map (·.amount_total)).sum ≤ 0 then
        chainStores env payments rest sid q
      else
        chainStores env payments rest (sid + 1)
          (chainSettle env sid (storeGroup payments k) q)) := rfl

theorem chainStores_settled (env : RunEnv) (payments : List Payment)
    {q : Payment} (hq : q.is_settled = true) :
    ∀ (keys : List String) (sid : Nat), chainStores env payments keys sid q = q := by
  intro keys
  induction keys with
  | nil => intro sid; rfl
  | cons k rest ih =>
    intro sid
    rw [chainStores_cons]
    by_cases hneg : ((storeGroup payments k).map (·.amount_total)).sum ≤ 0
    · rw [if_pos hneg]; exact ih sid
    · rw [if_neg hneg, chainSettle_settled env sid hq]; exact ih (sid + 1)

theorem chainStores_untouched (env : RunEnv) (payments : List Payment)
    {q : Payment} :
    ∀ (keys : List String) (sid : Nat),
      (∀ k ∈ keys, ¬((storeGroup payments k).map (·.amount_total)).sum ≤ 0 →
        ∀ p ∈ storeGroup payments k, env.raceSettled p.id = false → p.id ≠ q.id) →
      chainStores env payments keys sid q = q := by
  intro keys
  induction keys with
  | nil => intro sid _; rfl
  | cons k rest ih =>
    intro sid h
    rw [chainStores_cons]
    by_cases hneg : ((storeGroup payments k).map (·.amount_total)).sum ≤ 0
    · rw [if_pos hneg]
      exact ih sid fun x hx => h x (List.mem_cons_of_mem k hx)
    · rw [if_neg hneg,
        chainSettle_untouched env sid _ (h k (List.mem_cons_self k rest) hneg)]
      exact ih (sid + 1) fun x hx => h x (List.mem_cons_of_mem k hx)

theorem chainStores_hit (env : RunEnv) {payments : List Payment} {p : Payment}
    (hq : p.is_settled = false) (hrace : env.raceSettled p.id = false)
    (hnd : (payments.map (·.id)).Nodup) (hpmem : p ∈ payments) :
    ∀ (keys : List String) (sid : Nat), p.store_id ∈ keys →
      ¬(groupTotal payments p.store_id ≤ 0) →
      ∃ sidX, chainStores env payments keys sid p =
        { p with is_settled := true, settlement_statement_id := some sidX } := by
  intro keys
  induction keys with
  | nil => intro sid hmem; cases hmem
  | cons k rest ih =>
    intro sid hmem hpos
    rw [chainStores_cons]
    by_cases hk : k = p.store_id
    · subst hk
      rw [if_neg (show ¬((storeGroup payments p.store_id).map (·.amount_total)).sum ≤ 0 from hpos)]
      have hpg : p ∈ storeGroup payments p.store_id :=
        List.mem_filter.mpr ⟨hpmem, by simp⟩
      have hgnd : ((storeGroup payments p.store_id).map (·.id)).Nodup :=
        hnd.sublist ((List.filter_sublist payments).map (·.id))
      rw [chainSettle_hit env sid hq rfl hrace _ hpg hgnd]
      exact ⟨sid, chainStores_settled env payments rfl rest (sid + 1)⟩
    · have hmem' : p.store_id ∈ rest := by
        rcases List.mem_cons.mp hmem with hcontra | h
        · exact absurd hcontra.symm hk
        · exact h
      by_cases hneg : ((storeGroup payments k).map (·.amount_total)).sum ≤ 0
      · rw [if_pos hneg]
        exact ih sid hmem' hpos
      · rw [if_neg hneg]
        have huntouched : chainSettle env sid (storeGroup payments k) p = p := by
          apply chainSettle_untouched
          intro x hx _ hid
          have hxp : x = p :=
            eq_of_mem_of_id_eq hnd (List.mem_filter.mp hx).1 hpmem hid
          have hxs : x.store_id = k := by
            have := (List.mem_filter.mp hx).2
            exact beq_iff_eq.mp this
          exact hk (hxp ▸ hxs).symm
        rw [huntouched]
        exact ih (sid + 1) hmem' hpos

/-! ### Behaviour of the store loop -/

theorem processStores_payments {env : RunEnv} {logId : Nat} {s e : Int}
    {payments : List Payment} :
    ∀ {keys : List String} {acc acc2 : RunAcc},
      processStores env logId s e payments keys acc = .ok acc2 →
      acc2.db.payments = acc.db.payments.map
        (chainStores env payments keys acc.db.nextStatementId) ∧
      acc2.db.nextStatementId = acc.db.nextStatementId + posKeyCount payments keys := by
  intro keys
  induction keys with
  | nil =>
    intro acc acc2 h
    simp only [processStores, Except.ok.injEq] at h
    subst h
    refine ⟨(List.map_id'' (fun q => chainStores_nil env payments _ q) _).symm, ?_⟩
    simp [posKeyCount]
  | cons k rest ih =>
    intro acc acc2 h
    simp only [processStores] at h
    by_cases hneg : ((storeGroup payments k).map (·.amount_total)).sum ≤ 0
    · rw [if_pos hneg] at h
      obtain ⟨h1, h2⟩ := ih h
      have hcount : posKeyCount payments (k :: rest) = posKeyCount payments rest := by
        simp [posKeyCount, List.countP_cons, groupTotal, hneg]
      refine ⟨?_, ?_⟩
      · rw [h1]
        exact List.map_congr_left fun q _ => by rw [chainStores_cons, if_pos hneg]
      · rw [h2, hcount]
    · rw [if_neg hneg] at h
      by_cases hthrow : env.statementInsertThrows k
      · rw [if_pos hthrow] at h; exact absurd h (by simp)
      · rw [if_neg hthrow] at h
        by_cases hnoid : env.statementInsertNoId k
        · rw [if_pos hnoid] at h; exact absurd h (by simp)
        · rw [if_neg hnoid] at h
          split at h
          case _ => exact absurd h (by simp)
          case _ accMid heq =>
            obtain ⟨h1, h2⟩ := ih h
            have hpay := processPayments_payments heq
            obtain ⟨_, _, hnext, _, _, _, _⟩ := processPayments_frame heq
            have hcount : posKeyCount payments (k :: rest) = posKeyCount payments rest + 1 := by
              simp [posKeyCount, List.countP_cons, groupTotal, hneg]
            refine ⟨?_, ?_⟩
            · rw [h1, hpay]
              try dsimp only at hnext ⊢
              rw [hnext]
              try dsimp only
              rw [List.map_map]
              exact List.map_congr_left fun q _ => by
                rw [chainStores_cons, if_neg hneg]; rfl
            · try dsimp only at h2 hnext
              rw [h2, hnext, hcount]
              try dsimp only
              omega

theorem processStores_skipped {env : RunEnv} {logId : Nat} {s e : Int}
    {payments : List Payment} :
    ∀ {keys : List String} {acc acc2 : RunAcc},
      processStores env logId s e payments keys acc = .ok acc2 →
      acc2.skippedPaymentCount = acc.skippedPaymentCount +
        skippedOf env payments keys := by
  intro keys
  induction keys with
  | nil =>
    intro acc acc2 h
    simp only [processStores, Except.ok.injEq] at h
    subst h
    simp [skippedOf]
  | cons k rest ih =>
    intro acc acc2 h
    simp only [processStores] at h
    by_cases hneg : ((storeGroup payments k).map (·.amount_total)).sum ≤ 0
    · rw [if_pos hneg] at h
      have h1 := ih h
      have hiter : skippedOf env payments (k :: rest) =
          (storeGroup payments k).length + skippedOf env payments rest := by
        simp [skippedOf, groupTotal, hneg]
      rw [h1, hiter]
      dsimp only
      omega
    · rw [if_neg hneg] at h
      by_cases hthrow : env.statementInsertThrows k
      · rw [if_pos hthrow] at h; exact absurd h (by simp)
      · rw [if_neg hthrow] at h
        by_cases hnoid : env.statementInsertNoId k
        · rw [if_pos hnoid] at h; exact absurd h (by simp)
        · rw [if_neg hnoid] at h
          split at h
          case _ => exact absurd h (by simp)
          case _ accMid heq =>
            have h1 := ih h
            obtain ⟨hskip, _⟩ := processPayments_counters heq
            have hiter : skippedOf env payments (k :: rest) =
                racedCount env (storeGroup payments k) + skippedOf env payments rest := by
              simp [skippedOf, groupTotal, hneg]
            try dsimp only at h1 hskip
            rw [h1, hskip, hiter]
            try dsimp only
            omega

theorem processStores_settlements {env : RunEnv} {logId : Nat} {s e : Int}
    {payments : List Payment} :
    ∀ {keys : List String} {acc acc2 : RunAcc},
      processStores env logId s e payments keys acc = .ok acc2 →
      acc2.settlements.map dropStatementId =
        acc.settlements.map dropStatementId ++ simEntries payments keys := by
  intro keys
  induction keys with
  | nil =>
    intro acc acc2 h
    simp only [processStores, Except.ok.injEq] at h
    subst h
    simp [simEntries]
  | cons k rest ih =>
    intro acc acc2 h
    simp only [processStores] at h
    by_cases hneg : ((storeGroup payments k).map (·.amount_total)).sum ≤ 0
    · rw [if_pos hneg] at h
      have h1 := ih h
      have hiter : simEntries payments (k :: rest) = simEntries payments rest := by
        unfold simEntries
        rw [List.filterMap_cons_none]
        simp only [if_pos hneg]
      rw [h1, hiter]
    · rw [if_neg hneg] at h
      by_cases hthrow : env.statementInsertThrows k
      · rw [if_pos hthrow] at h; exact absurd h (by simp)
      · rw [if_neg hthrow] at h
        by_cases hnoid : env.statementInsertNoId k
        · rw [if_pos hnoid] at h; exact absurd h (by simp)
        · rw [if_neg hnoid] at h
          split at h
          case _ => exact absurd h (by simp)
          case _ accMid heq =>
            have h1 := ih h
            obtain ⟨_, _, _, _, hsett, _, _⟩ := processPayments_frame heq
            have hiter : simEntries payments (k :: rest) =
                { storeId := k, statementId := none,
                  totalSales := ((storeGroup payments k).map (·.amount_total)).sum,
                  commissionAmount :=
                    commissionOf ((storeGroup payments k).map (·.amount_total)).sum,
                  payoutAmount :=
                    ((storeGroup payments k).map (·.amount_total)).sum -
                      commissionOf ((storeGroup payments k).map (·.amount_total)).sum,
                  paymentsCount := (storeGroup payments k).length } ::
                  simEntries payments rest := by
              unfold simEntries
              rw [List.filterMap_cons_some]
              simp only [if_neg hneg]
            try dsimp only at h1 hsett
            rw [h1, hsett, hiter]
            try dsimp only
            simp [dropStatementId]


/-- Item-amount sum over an explicit item list. -/
def listItemsSum (items : List SettlementItem) (sid : Nat) : Int :=
  ((items.filter (fun it => it.statement_id == sid)).map (·.amount)).sum

theorem itemsSum_eq (db : DB) (sid : Nat) :
    itemsSum db sid = listItemsSum db.settlement_items sid := rfl

theorem listItemsSum_append (l1 l2 : List SettlementItem) (sid : Nat) :
    listItemsSum (l1 ++ l2) sid = listItemsSum l1 sid + listItemsSum l2 sid := by
  simp [listItemsSum, List.filter_append]

theorem listItemsSum_zero {l : List SettlementItem} {sid : Nat}
    (h : ∀ it ∈ l, it.statement_id ≠ sid) : listItemsSum l sid = 0 := by
  unfold listItemsSum
  rw [List.filter_eq_nil_iff.mpr fun it hit hc => h it hit (beq_iff_eq.mp hc)]
  rfl

theorem listItemsSum_all {l : List SettlementItem} {sid : Nat}
    (h : ∀ it ∈ l, it.statement_id = sid) :
    listItemsSum l sid = (l.map (·.amount)).sum := by
  unfold listItemsSum
  rw [List.filter_eq_self.mpr fun it hit => beq_iff_eq.mpr (h it hit)]

/-- The amounts of one group's freshly inserted items sum to the group total
minus the race-skipped amounts. -/
theorem newItems_sum (env : RunEnv) (stId : Nat) :
    ∀ ps : List Payment,
      ((ps.filterMap (fun p =>
          if env.raceSettled p.id then none
          else some ({ statement_id := stId, payment_id := p.id,
                       amount := p.amount_total } : SettlementItem))).map
        (·.amount)).sum
        = (ps.map (·.amount_total)).sum - racedAmount env ps := by
  intro ps
  induction ps with
  | nil => rfl
  | cons p rest ih =>
    by_cases hr : env.raceSettled p.id
    · rw [List.filterMap_cons_none (by rw [if_pos hr])]
      have hra : racedAmount env (p :: rest) =
          p.amount_total + racedAmount env rest := by
        simp [racedAmount, List.filter_cons, hr]
      rw [ih, hra]
      simp only [List.map_cons, List.sum_cons]
      omega
    · rw [List.filterMap_cons_some (by rw [if_neg hr])]
      have hra : racedAmount env (p :: rest) = racedAmount env rest := by
        have hr' : env.raceSettled p.id = false := by
          cases hc : env.raceSettled p.id
          · rfl
          · exact absurd hc hr
        simp [racedAmount, List.filter_cons, hr']
      simp only [List.map_cons, List.sum_cons]
      rw [ih, hra]
      omega

/-- Every new item of one group's inner loop carries that group's statement
id. -/
theorem newItems_ids (env : RunEnv) (stId : Nat) (ps : List Payment) :
    ∀ it ∈ ps.filterMap (fun p =>
        if env.raceSettled p.id then none
        else some ({ statement_id := stId, payment_id := p.id,
                     amount := p.amount_total } : SettlementItem)),
      it.statement_id = stId := by
  intro it hit
  obtain ⟨p, _, hsome⟩ := List.mem_filterMap.mp hit
  by_cases hr : env.raceSettled p.id
  · rw [if_pos hr] at hsome; cases hsome
  · rw [if_neg hr] at hsome
    cases hsome
    rfl

/-- A store loop over only non-positive groups merely counts skips: the
draft state and the settlements array are untouched. -/
theorem processStores_all_nonpos {env : RunEnv} {logId : Nat} {s e : Int}
    {payments : List Payment} :
    ∀ {keys : List String} {acc : RunAcc},
      (∀ k ∈ keys, ((storeGroup payments k).map (·.amount_total)).sum ≤ 0) →
      ∃ n, processStores env logId s e payments keys acc =
        .ok { acc with skippedPaymentCount := n } := by
  intro keys
  induction keys with
  | nil =>
    intro acc _
    exact ⟨acc.skippedPaymentCount, rfl⟩
  | cons k rest ih =>
    intro acc h
    obtain ⟨n, hn⟩ := @ih { acc with skippedPaymentCount :=
        acc.skippedPaymentCount + (storeGroup payments k).length }
      (fun x hx => h x (List.mem_cons_of_mem k hx))
    refine ⟨n, ?_⟩
    simp only [processStores]
    rw [if_pos (h k (List.mem_cons_self k rest))]
    exact hn

/-- Everything the store loop guarantees about a statement row it inserted:
fresh id, positive group, the commission arithmetic of the source, and the
link between the statement total and the item amounts actually inserted. -/
def StatementFacts (env : RunEnv) (payments : List Payment) (s e : Int)
    (db2 : DB) (lo : Nat) (keys : List String)
    (st : SettlementStatement) : Prop :=
  lo ≤ st.id ∧
  st.store_id ∈ keys ∧
  ¬(((storeGroup payments st.store_id).map (·.amount_total)).sum ≤ 0) ∧
  st.total_sales = ((storeGroup payments st.store_id).map (·.amount_total)).sum ∧
  st.commission_amount = commissionOf st.total_sales ∧
  st.payout_amount = st.total_sales - st.commission_amount ∧
  st.meta_paymentsCount = (storeGroup payments st.store_id).length ∧
  st.period_start = s ∧ st.period_end = e ∧ st.status = "pending" ∧
  st.commission_rate = PLATFORM_COMMISSION_RATE ∧
  itemsSum db2 st.id = st.total_sales - racedAmount env (storeGroup payments st.store_id)

theorem StatementFacts.weaken {env : RunEnv} {payments : List Payment}
    {s e : Int} {db2 : DB} {lo lo' : Nat} {keys keys' : List String}
    {st : SettlementStatement}
    (h : StatementFacts env payments s e db2 lo keys st)
    (hlo : lo' ≤ lo) (hk : ∀ x ∈ keys, x ∈ keys') :
    StatementFacts env payments s e db2 lo' keys' st := by
  obtain ⟨h1, h2, h⟩ := h
  exact ⟨le_trans hlo h1, hk _ h2, h⟩

/-- The store loop appends statement rows that all satisfy
`StatementFacts`, keeps the item sums of previously existing statement ids
untouched, and preserves the invariant that every item references an
already-allocated statement id. -/
theorem processStores_statements {env : RunEnv} {logId : Nat} {s e : Int}
    {payments : List Payment} :
    ∀ {keys : List String} {acc acc2 : RunAcc},
      processStores env logId s e payments keys acc = .ok acc2 →
      (∀ it ∈ acc.db.settlement_items, it.statement_id < acc.db.nextStatementId) →
      ∃ news,
        acc2.db.settlement_statements = acc.db.settlement_statements ++ news ∧
        (∀ st ∈ news,
          StatementFacts env payments s e acc2.db acc.db.nextStatementId keys st) ∧
        (∀ sid, sid < acc.db.nextStatementId →
          itemsSum acc2.db sid = itemsSum acc.db sid) ∧
        (∀ it ∈ acc2.db.settlement_items, it.statement_id < acc2.db.nextStatementId) := by
  intro keys
  induction keys with
  | nil =>
    intro acc acc2 h hWF
    simp only [processStores, Except.ok.injEq] at h
    subst h
    exact ⟨[], by simp, by simp, fun sid _ => rfl, hWF⟩
  | cons k rest ih =>
    intro acc acc2 h hWF
    simp only [processStores] at h
    by_cases hneg : ((storeGroup payments k).map (·.amount_total)).sum ≤ 0
    · rw [if_pos hneg] at h
      obtain ⟨news, ha, hb, hc, hd⟩ := ih h hWF
      exact ⟨news, ha,
        fun st hst => (hb st hst).weaken (le_refl _)
          (fun x hx => List.mem_cons_of_mem k hx),
        hc, hd⟩
    · rw [if_neg hneg] at h
      by_cases hthrow : env.statementInsertThrows k
      · rw [if_pos hthrow] at h; exact absurd h (by simp)
      · rw [if_neg hthrow] at h
        by_cases hnoid : env.statementInsertNoId k
        · rw [if_pos hnoid] at h; exact absurd h (by simp)
        · rw [if_neg hnoid] at h
          split at h
          case _ => exact absurd h (by simp)
          case _ accMid heq =>
            -- data about the one inserted statement and its items
            have hmidStmts0 := (processPayments_frame heq).1
            have hmidNext0 := (processPayments_frame heq).2.2.1
            have hmidItems0 := processPayments_items heq
            have hmidStmts : accMid.db.settlement_statements =
                acc.db.settlement_statements ++
                  [{ id := acc.db.nextStatementId, store_id := k,
                     period_start := s, period_end := e,
                     total_sales := ((storeGroup payments k).map (·.amount_total)).sum,
                     commission_rate := PLATFORM_COMMISSION_RATE,
                     commission_amount :=
                       commissionOf ((storeGroup payments k).map (·.amount_total)).sum,
                     payout_amount :=
                       ((storeGroup payments k).map (·.amount_total)).sum -
                         commissionOf ((storeGroup payments k).map (·.amount_total)).sum,
                     status := "pending",
                     meta_paymentsCount := (storeGroup payments k).length }] :=
              hmidStmts0
            have hmidNext : accMid.db.nextStatementId = acc.db.nextStatementId + 1 :=
              hmidNext0
            have hmidItems : accMid.db.settlement_items =
                acc.db.settlement_items ++
                  (storeGroup payments k).filterMap (fun p =>
                    if env.raceSettled p.id then none
                    else some { statement_id := acc.db.nextStatementId,
                                payment_id := p.id,
                                amount := p.amount_total }) :=
              hmidItems0
            have hWFmid : ∀ it ∈ accMid.db.settlement_items,
                it.statement_id < accMid.db.nextStatementId := by
              intro it hit
              rw [hmidItems] at hit
              rcases List.mem_append.mp hit with hold | hnew
              · have := hWF it hold
                rw [hmidNext]
                omega
              · have := newItems_ids env acc.db.nextStatementId _ it hnew
                rw [hmidNext, this]
                omega
            obtain ⟨news, ha0, hb0, hc0, hd0⟩ := ih h hWFmid
            have ha : acc2.db.settlement_statements =
                accMid.db.settlement_statements ++ news := ha0
            have hb : ∀ st ∈ news, StatementFacts env payments s e acc2.db
                accMid.db.nextStatementId rest st := hb0
            have hc : ∀ sid, sid < accMid.db.nextStatementId →
                itemsSum acc2.db sid = itemsSum accMid.db sid := hc0
            have hd : ∀ it ∈ acc2.db.settlement_items,
                it.statement_id < acc2.db.nextStatementId := hd0
            -- the new statement row of this iteration
            refine ⟨{ id := acc.db.nextStatementId, store_id := k,
                      period_start := s, period_end := e,
                      total_sales := ((storeGroup payments k).map (·.amount_total)).sum,
                      commission_rate := PLATFORM_COMMISSION_RATE,
                      commission_amount :=
                        commissionOf ((storeGroup payments k).map (·.amount_total)).sum,
                      payout_amount :=
                        ((storeGroup payments k).map (·.amount_total)).sum -
                          commissionOf ((storeGroup payments k).map (·.amount_total)).sum,
                      status := "pending",
                      meta_paymentsCount := (storeGroup payments k).length } :: news,
                    ?_, ?_, ?_, hd⟩
            · rw [ha, hmidStmts]
              simp
            · intro st hst
              rcases List.mem_cons.mp hst with rfl | hst'
              · refine ⟨le_refl _, List.mem_cons_self k rest, hneg, rfl, rfl, rfl,
                        rfl, rfl, rfl, rfl, rfl, ?_⟩
                -- item sum of the new statement id
                have hlt : acc.db.nextStatementId < accMid.db.nextStatementId := by
                  rw [hmidNext]; omega
                have hpres := hc acc.db.nextStatementId hlt
                show itemsSum acc2.db acc.db.nextStatementId =
                  ((storeGroup payments k).map (·.amount_total)).sum -
                    racedAmount env (storeGroup payments k)
                simp only [itemsSum_eq] at hpres ⊢
                rw [hpres, hmidItems, listItemsSum_append]
                have hold : listItemsSum acc.db.settlement_items
                    acc.db.nextStatementId = 0 :=
                  listItemsSum_zero fun it hit =>
                    Nat.ne_of_lt (hWF it hit)
                have hnew : listItemsSum
                    ((storeGroup payments k).filterMap (fun p =>
                      if env.raceSettled p.id then none
                      else some { statement_id := acc.db.nextStatementId,
                                  payment_id := p.id,
                                  amount := p.amount_total }))
                    acc.db.nextStatementId =
                    ((storeGroup payments k).map (·.amount_total)).sum -
                      racedAmount env (storeGroup payments k) := by
                  rw [listItemsSum_all (newItems_ids env _ _)]
                  exact newItems_sum env _ _
                rw [hold, hnew]
                omega
              · exact (hb st hst').weaken (by rw [hmidNext]; omega)
                  (fun x hx => List.mem_cons_of_mem k hx)
            · intro sid hsid
              have hsid' : sid < accMid.db.nextStatementId := by
                rw [hmidNext]; omega
              have := hc sid hsid'
              simp only [itemsSum_eq] at this ⊢
              rw [this, hmidItems, listItemsSum_append]
              have hnew0 : listItemsSum
                  ((storeGroup payments k).filterMap (fun p =>
                    if env.raceSettled p.id then none
                    else some { statement_id := acc.db.nextStatementId,
                                payment_id := p.id,
                                amount := p.amount_total })) sid = 0 :=
                listItemsSum_zero fun it hit => by
                  rw [newItems_ids env _ _ it hit]
                  omega
              rw [hnew0]
              omega

/-! ### Run-level elimination lemmas -/

theorem chainStores_id_preserved (env : RunEnv) (payments : List Payment) :
    ∀ (keys : List String) (sid : Nat) (q : Payment),
      (chainStores env payments keys sid q).id = q.id := by
  intro keys
  induction keys with
  | nil => intro sid q; rfl
  | cons k rest ih =>
    intro sid q
    rw [chainStores_cons]
    by_cases hneg : ((storeGroup payments k).map (·.amount_total)).sum ≤ 0
    · rw [if_pos hneg]; exact ih sid q
    · rw [if_neg hneg, ih (sid + 1) _]
      exact chainSettle_id env sid q _

theorem storeKeysAux_mem_exists {k : String} :
    ∀ {ps : List Payment} {seen : List String},
      k ∈ storeKeysAux ps seen → ∃ p ∈ ps, p.store_id = k := by
  intro ps
  induction ps with
  | nil => intro seen h; cases h
  | cons a rest ih =>
    intro seen h
    rw [storeKeysAux] at h
    by_cases hs : seen.contains a.store_id
    · rw [if_pos hs] at h
      obtain ⟨p, hp, hpk⟩ := ih h
      exact ⟨p, List.mem_cons_of_mem a hp, hpk⟩
    · rw [if_neg hs] at h
      rcases List.mem_cons.mp h with rfl | h'
      · exact ⟨a, List.mem_cons_self a rest, rfl⟩
      · obtain ⟨p, hp, hpk⟩ := ih h'
        exact ⟨p, List.mem_cons_of_mem a hp, hpk⟩

theorem storeKeys_mem_exists {k : String} {ps : List Payment}
    (h : k ∈ storeKeys ps) : ∃ p ∈ ps, p.store_id = k :=
  storeKeysAux_mem_exists h

theorem racedAmount_zero {env : RunEnv} {ps : List Payment}
    (h : ∀ p ∈ ps, env.raceSettled p.id = false) : racedAmount env ps = 0 := by
  unfold racedAmount
  rw [List.filter_eq_nil_iff.mpr fun p hp hc => by rw [h p hp] at hc; cases hc]
  rfl

theorem run_ok_not_le {env : RunEnv} {db : DB} {s e : Int} {dr : Bool}
    {db1 : DB} {r : SettlementReport}
    (h : runSettlementPeriod env db s e dr = (db1, .ok r)) : ¬ e ≤ s := by
  intro hv
  rw [runSettlementPeriod, if_pos hv] at h
  have := congrArg Prod.snd h
  simp at this

/-- A committed run over an empty eligible set: the state gains only the log
rows and the report is the zero-valued noop report. -/
theorem runSettlement_noop_elim {env : RunEnv} {db : DB} {s e : Int}
    {db1 : DB} {r : SettlementReport}
    (h : runSettlementPeriod env db s e false = (db1, .ok r))
    (hE : (selectEligible db s e).isEmpty) :
    db1 = updateLog (insertSkeletonLog db s e) db.nextLogId
      (fun l => { l with status := "noop", message := "정산 대상 없음",
                         total_payments := 0 }) ∧
    r = { status := "noop", totalPayments := 0, totalStatements := 0,
          settlements := [] } := by
  have hv := run_ok_not_le h
  rw [runSettlementPeriod, if_neg hv] at h
  simp only [runSettlementBody] at h
  rw [if_pos hE] at h
  rw [Prod.mk.injEq] at h
  obtain ⟨hdb, hr⟩ := h
  simp only [Except.ok.injEq] at hr
  exact ⟨hdb.symm, hr.symm⟩

/-- A committed run over a non-empty eligible set factors through the store
loop: the final state is the loop's draft state plus the final log UPDATE,
and the report carries the loop's counters and entries. -/
theorem runSettlement_ok_elim {env : RunEnv} {db : DB} {s e : Int}
    {db1 : DB} {r : SettlementReport}
    (h : runSettlementPeriod env db s e false = (db1, .ok r))
    (hne : ¬ (selectEligible db s e).isEmpty) :
    ∃ acc : RunAcc,
      processStores env db.nextLogId s e (selectEligible db s e)
        (storeKeys (selectEligible db s e))
        { db := insertSkeletonLog db s e, successPaymentCount := 0,
          skippedPaymentCount := 0, totalCommission := 0, totalPayout := 0,
          settlements := [] } = .ok acc ∧
      db1.payments = acc.db.payments ∧
      db1.settlement_statements = acc.db.settlement_statements ∧
      db1.settlement_items = acc.db.settlement_items ∧
      db1.nextStatementId = acc.db.nextStatementId ∧
      r = { status := "success",
            totalPayments := (selectEligible db s e).length,
            totalStatements := acc.settlements.length,
            successPaymentCount := acc.successPaymentCount,
            skippedPaymentCount := acc.skippedPaymentCount,
            totalPayout := acc.totalPayout,
            totalCommission := acc.totalCommission,
            settlements := acc.settlements } := by
  have hv := run_ok_not_le h
  rw [runSettlementPeriod, if_neg hv] at h
  simp only [runSettlementBody] at h
  rw [if_neg hne] at h
  simp only [Bool.false_eq_true, if_false] at h
  cases hps : processStores env db.nextLogId s e (selectEligible db s e)
      (storeKeys (selectEligible db s e))
      { db := insertSkeletonLog db s e, successPaymentCount := 0,
        skippedPaymentCount := 0, totalCommission := 0, totalPayout := 0,
        settlements := [] } with
  | error msg =>
    rw [hps] at h
    simp at h
  | ok acc =>
    rw [hps] at h
    rw [Prod.mk.injEq] at h
    obtain ⟨hdb, hr⟩ := h
    simp only [Except.ok.injEq] at hr
    exact ⟨acc, rfl, by rw [← hdb]; rfl, by rw [← hdb]; rfl,
           by rw [← hdb]; rfl, by rw [← hdb]; rfl, hr.symm⟩

/-! ### Claim theorems -/

/-- C1: a `runSettlementPeriod` invocation that passes validation, inserts
the skeleton `settlement_logs` row and then fails before the final commit
does NOT leave a `settlement_logs` row with status `failed` behind: the
catch block's `failed` UPDATE runs inside the still-open transaction and is
undone by the subsequent `rollback()` together with the skeleton INSERT, so
the post-state carries no trace of the run at all.  Demonstrated on a
concrete run whose statement INSERT returns no id: the run throws and the
post-state equals the initial state, whose `settlement_logs` is empty. -/
theorem failed_run_leaves_no_settlement_log :
    runSettlementPeriod noIdOnMEnv twoPaymentDB 0 100 false =
      (twoPaymentDB, .error "정산 명세 INSERT 실패: storeId=M") ∧
    twoPaymentDB.settlement_logs = [] := by
  constructor
  · rfl
  · rfl

/-- C9 counterexample: `mapTossStatusToOurStatus "toString"` does not return
`PENDING` although `"toString"` is not an own key of the mapping table — the
JS property read finds the inherited `Object.prototype.toString` function,
which is truthy and short-circuits the `|| 'PENDING'` default. -/
theorem mapToss_toString_not_pending :
    mapTossStatusToOurStatus "toString" ≠ JsVal.str "PENDING" ∧
    "toString" ∉ tossStatusTableKeys := by
  decide

/-- C9 (amended): `mapTossStatusToOurStatus` never throws and realises the
table READY→PENDING, IN_PROGRESS→PENDING, WAITING_FOR_DEPOSIT→PENDING,
DONE→SUCCESS, CANCELED→CANCELED, PARTIAL_CANCELED→CANCELED, ABORTED→FAILED,
EXPIRED→FAILED; every string that is neither an own key of the table nor
one of the twelve `Object.prototype` property names maps to PENDING; on the
`Object.prototype` names the inherited member — a truthy non-string — is
returned instead of PENDING. -/
theorem mapToss_table_default_and_proto_leak :
    (mapTossStatusToOurStatus "READY" = .str "PENDING" ∧
     mapTossStatusToOurStatus "IN_PROGRESS" = .str "PENDING" ∧
     mapTossStatusToOurStatus "WAITING_FOR_DEPOSIT" = .str "PENDING" ∧
     mapTossStatusToOurStatus "DONE" = .str "SUCCESS" ∧
     mapTossStatusToOurStatus "CANCELED" = .str "CANCELED" ∧
     mapTossStatusToOurStatus "PARTIAL_CANCELED" = .str "CANCELED" ∧
     mapTossStatusToOurStatus "ABORTED" = .str "FAILED" ∧
     mapTossStatusToOurStatus "EXPIRED" = .str "FAILED") ∧
    (∀ s : String, s ∉ tossStatusTableKeys → s ∉ objectPrototypeKeys →
      mapTossStatusToOurStatus s = .str "PENDING") ∧
    (∀ s ∈ objectPrototypeKeys, s ∉ tossStatusTableKeys ∧
      mapTossStatusToOurStatus s = .protoMember s) := by
  refine ⟨by decide, ?_, by decide⟩
  intro s h1 h2
  simp only [tossStatusTableKeys, List.mem_cons, List.not_mem_nil, or_false,
    not_or] at h1
  obtain ⟨n1, n2, n3, n4, n5, n6, n7, n8⟩ := h1
  unfold mapTossStatusToOurStatus
  rw [if_neg (by simp [n1]), if_neg (by simp [n2]), if_neg (by simp [n3]),
      if_neg (by simp [n4]), if_neg (by simp [n5]), if_neg (by simp [n6]),
      if_neg (by simp [n7]), if_neg (by simp [n8]), if_neg (by simpa using h2)]

/-- C9 witness: applying the amended default clause at the concrete
unrecognised status `"FOO"`. -/
theorem mapToss_default_witness :
    mapTossStatusToOurStatus "FOO" = .str "PENDING" :=
  mapToss_table_default_and_proto_leak.2.1 "FOO" (by decide) (by decide)

/-- C7: a dry run — whatever the environment, the state, the window and the
outcome — leaves the `payments` rows (and with them every `is_settled` flag
and `settlement_statement_id` reference), the `settlement_statements`
table, the `settlement_items` table and the `settlement_errors` table
exactly as they were; only the settlement log is written. -/
theorem dryRun_never_mutates_ledger (env : RunEnv) (db : DB) (ps pe : Int) :
    ((runSettlementPeriod env db ps pe true).1.payments = db.payments) ∧
    ((runSettlementPeriod env db ps pe true).1.settlement_statements =
      db.settlement_statements) ∧
    ((runSettlementPeriod env db ps pe true).1.settlement_items =
      db.settlement_items) ∧
    ((runSettlementPeriod env db ps pe true).1.settlement_errors =
      db.settlement_errors) := by
  unfold runSettlementPeriod
  by_cases hv : pe ≤ ps
  · rw [if_pos hv]
    exact ⟨rfl, rfl, rfl, rfl⟩
  · rw [if_neg hv]
    unfold runSettlementBody
    by_cases hE : (selectEligible db ps pe).isEmpty
    · rw [if_pos hE]
      exact ⟨rfl, rfl, rfl, rfl⟩
    · rw [if_neg hE]
      exact ⟨rfl, rfl, rfl, rfl⟩

/-! ### Webhook claim machinery -/

theorem handlePaymentStatusChanged_shape (db : DB) (now : Int) (payment : Payment)
    (pk stt : Option String) (app tot : Option Int) (mth : Option String) :
    ∃ g : Payment → Payment,
      (handlePaymentStatusChanged db now payment pk stt app tot mth).payments =
        db.payments.map g ∧
      (∀ q, (g q).pg_order_id = q.pg_order_id) ∧
      (handlePaymentStatusChanged db now payment pk stt app tot mth).payment_webhooks =
        db.payment_webhooks := by
  unfold handlePaymentStatusChanged
  by_cases hs : mapTossOpt stt == JsVal.str "SUCCESS"
  · rw [if_pos hs]
    cases payment.reservation_id with
    | none =>
      exact ⟨_, rfl, fun q => by split <;> rfl, rfl⟩
    | some rid =>
      exact ⟨_, rfl, fun q => by split <;> rfl, rfl⟩
  · rw [if_neg hs]
    by_cases hf : mapTossOpt stt == JsVal.str "FAILED"
    · rw [if_pos hf]
      cases payment.reservation_id with
      | none =>
        exact ⟨_, rfl, fun q => by split <;> rfl, rfl⟩
      | some rid =>
        exact ⟨_, rfl, fun q => by split <;> rfl, rfl⟩
    · rw [if_neg hf]
      exact ⟨id, (List.map_id _).symm, fun q => rfl, rfl⟩

theorem handlePaymentCanceled_shape (db : DB) (now : Int) (payment : Payment) :
    ∃ g : Payment → Payment,
      (handlePaymentCanceled db now payment).payments = db.payments.map g ∧
      (∀ q, (g q).pg_order_id = q.pg_order_id) ∧
      (handlePaymentCanceled db now payment).payment_webhooks =
        db.payment_webhooks := by
  unfold handlePaymentCanceled
  cases payment.reservation_id with
  | none =>
    exact ⟨_, rfl, fun q => by split <;> rfl, rfl⟩
  | some rid =>
    exact ⟨_, rfl, fun q => by split <;> rfl, rfl⟩

/-- A fresh webhook (not short-circuited by the idempotency check) always
commits, always appends exactly one `payment_webhooks` row — with the
webhook's order id, event type, reported status and receipt time — and
mutates `payments` at most through an order-id-preserving row update. -/
theorem processWebhook_fresh_shape (db : DB) (now : Int) (wd : WebhookData)
    {et oid : String} {P : Payment}
    (het : wd.eventType = some et) (hetne : et ≠ "")
    (hoid : wd.orderId = some oid) (hoidne : oid ≠ "")
    (hfind : db.payments.find? (fun p => p.pg_order_id == oid) = some P)
    (hfresh : checkWebhookIdempotency db now oid et wd.status = false) :
    ∃ (dbfin : DB) (r : WebhookResult) (g : Payment → Payment),
      processWebhook db now wd = (dbfin, .ok r) ∧
      dbfin.payment_webhooks = db.payment_webhooks ++
        [{ id := db.nextWebhookSeq, payment_id := P.id, pg_order_id := oid,
           pg_payment_key := wd.paymentKey, event_type := et,
           status := wd.status, created_at := now }] ∧
      dbfin.payments = db.payments.map g ∧
      (∀ q, (g q).pg_order_id = q.pg_order_id) := by
  have h1 : jsFalsyS wd.eventType = false := by
    rw [het]
    simp [jsFalsyS, hetne]
  have h2 : jsFalsyS wd.orderId = false := by
    rw [hoid]
    simp [jsFalsyS, hoidne]
  unfold processWebhook
  rw [h1, h2]
  simp only [Bool.or_self, Bool.false_eq_true, if_false]
  rw [het, hoid]
  simp only [Option.getD_some]
  rw [hfind, hfresh]
  simp only [Bool.false_eq_true, if_false]
  by_cases hval : isValidTransitionJs P.status (mapTossOpt wd.status)
  · rw [hval]
    simp only [Bool.not_true, Bool.false_eq_true, if_false]
    by_cases hsc : et == "PAYMENT_STATUS_CHANGED"
    · rw [if_pos hsc]
      obtain ⟨g, hg1, hg2, hg3⟩ := handlePaymentStatusChanged_shape
        (saveWebhookHistory db now P.id oid wd.paymentKey et wd.status) now P
        wd.paymentKey wd.status wd.approvedAt wd.totalAmount wd.method
      exact ⟨_, _, g, rfl, by rw [hg3]; rfl, by rw [hg1]; rfl, hg2⟩
    · rw [if_neg hsc]
      by_cases hca : et == "PAYMENT_CANCELED"
      · rw [if_pos hca]
        obtain ⟨g, hg1, hg2, hg3⟩ := handlePaymentCanceled_shape
          (saveWebhookHistory db now P.id oid wd.paymentKey et wd.status) now P
        exact ⟨_, _, g, rfl, by rw [hg3]; rfl, by rw [hg1]; rfl, hg2⟩
      · rw [if_neg hca]
        exact ⟨_, _, id, rfl, rfl, (List.map_id _).symm, fun q => rfl⟩
  · have hval' : isValidTransitionJs P.status (mapTossOpt wd.status) = false := by
      cases hc : isValidTransitionJs P.status (mapTossOpt wd.status)
      · rfl
      · exact absurd hc hval
    rw [hval']
    simp only [Bool.not_false, if_true]
    exact ⟨_, _, id, rfl, rfl, (List.map_id _).symm, fun q => rfl⟩

/-- C6: a webhook whose mapped internal status is not a legal transition
from the payment's current status is recorded (exactly one new
`payment_webhooks` row), commits with the rejected outcome, and leaves the
`payments` table — in particular the payment's status — completely
unchanged. -/
theorem invalid_transition_recorded_not_applied (db : DB) (now : Int)
    (wd : WebhookData) {et oid : String} {P : Payment}
    (het : wd.eventType = some et) (hetne : et ≠ "")
    (hoid : wd.orderId = some oid) (hoidne : oid ≠ "")
    (hfind : db.payments.find? (fun p => p.pg_order_id == oid) = some P)
    (hfresh : checkWebhookIdempotency db now oid et wd.status = false)
    (hinv : isValidTransitionJs P.status (mapTossOpt wd.status) = false) :
    processWebhook db now wd =
      (saveWebhookHistory db now P.id oid wd.paymentKey et wd.status,
       .ok { success := false, message := "Invalid status transition" }) ∧
    (processWebhook db now wd).1.payments = db.payments ∧
    (processWebhook db now wd).1.payment_webhooks = db.payment_webhooks ++
      [{ id := db.nextWebhookSeq, payment_id := P.id, pg_order_id := oid,
         pg_payment_key := wd.paymentKey, event_type := et,
         status := wd.status, created_at := now }] := by
  have h1 : jsFalsyS wd.eventType = false := by
    rw [het]
    simp [jsFalsyS, hetne]
  have h2 : jsFalsyS wd.orderId = false := by
    rw [hoid]
    simp [jsFalsyS, hoidne]
  have hmain : processWebhook db now wd =
      (saveWebhookHistory db now P.id oid wd.paymentKey et wd.status,
       .ok { success := false, message := "Invalid status transition" }) := by
    unfold processWebhook
    rw [h1, h2]
    simp only [Bool.or_self, Bool.false_eq_true, if_false]
    rw [het, hoid]
    simp only [Option.getD_some]
    rw [hfind, hfresh]
    simp only [Bool.false_eq_true, if_false]
    rw [hinv]
    simp only [Bool.not_false, if_true]
  exact ⟨hmain, by rw [hmain]; rfl, by rw [hmain]; rfl⟩

/-- C6 witness: a payment currently FAILED receiving a DONE (→ SUCCESS)
webhook is rejected and the payment row is unchanged. -/
theorem invalid_transition_witness :
    processWebhook failedPaymentDB 100 doneWebhookForFailed =
      (saveWebhookHistory failedPaymentDB 100 failedPayment.id "ORD8"
        doneWebhookForFailed.paymentKey "PAYMENT_STATUS_CHANGED"
        doneWebhookForFailed.status,
       .ok { success := false, message := "Invalid status transition" }) ∧
    (processWebhook failedPaymentDB 100 doneWebhookForFailed).1.payments =
      failedPaymentDB.payments ∧
    (processWebhook failedPaymentDB 100 doneWebhookForFailed).1.payment_webhooks =
      failedPaymentDB.payment_webhooks ++
      [{ id := failedPaymentDB.nextWebhookSeq, payment_id := failedPayment.id,
         pg_order_id := "ORD8", pg_payment_key := doneWebhookForFailed.paymentKey,
         event_type := "PAYMENT_STATUS_CHANGED",
         status := doneWebhookForFailed.status, created_at := 100 }] :=
  @invalid_transition_recorded_not_applied failedPaymentDB 100 doneWebhookForFailed
    "PAYMENT_STATUS_CHANGED" "ORD8" failedPayment
    (by decide) (by decide) (by decide) (by decide) (by decide) (by decide)
    (by decide)

/-- C5: a webhook carrying (orderId, eventType, status) that was already
processed within the last hour is detected by the idempotency check: the
second delivery commits with the already-processed outcome and performs no
write at all — the state after the second call is exactly the state after
the first, so across both deliveries the payment is mutated only by the
first. -/
theorem duplicate_webhook_idempotent (db : DB) (t1 t2 : Int) (wd : WebhookData)
    {et oid st : String}
    (het : wd.eventType = some et) (hetne : et ≠ "")
    (hoid : wd.orderId = some oid) (hoidne : oid ≠ "")
    (hst : wd.status = some st)
    (hfind : (db.payments.find? (fun p => p.pg_order_id == oid)).isSome)
    (hfresh : checkWebhookIdempotency db t1 oid et wd.status = false)
    (hwin : t2 - 3600 ≤ t1) :
    processWebhook ((processWebhook db t1 wd).1) t2 wd =
      ((processWebhook db t1 wd).1,
       .ok { success := true, message := "Already processed (idempotent)" }) := by
  obtain ⟨P, hP⟩ := Option.isSome_iff_exists.mp hfind
  obtain ⟨dbfin, r, g, hrun, hwebh, hpay, hg⟩ :=
    processWebhook_fresh_shape db t1 wd het hetne hoid hoidne hP hfresh
  have hfst : (processWebhook db t1 wd).1 = dbfin := by rw [hrun]
  rw [hfst]
  have h1 : jsFalsyS wd.eventType = false := by
    rw [het]
    simp [jsFalsyS, hetne]
  have h2 : jsFalsyS wd.orderId = false := by
    rw [hoid]
    simp [jsFalsyS, hoidne]
  have hfind2 : ∃ P2, dbfin.payments.find? (fun p => p.pg_order_id == oid) = some P2 := by
    apply Option.isSome_iff_exists.mp
    apply List.find?_isSome.mpr
    have hPmem : P ∈ db.payments ∧ (P.pg_order_id == oid) = true :=
      List.find?_some hP |> fun hpred => ⟨List.mem_of_find?_eq_some hP, hpred⟩
    exact ⟨g P, by rw [hpay]; exact List.mem_map_of_mem g hPmem.1,
           by rw [hg P]; exact hPmem.2⟩
  obtain ⟨P2, hP2⟩ := hfind2
  have hidem : checkWebhookIdempotency dbfin t2 oid et wd.status = true := by
    unfold checkWebhookIdempotency
    rw [hwebh, hst]
    apply List.any_eq_true.mpr
    refine ⟨_, List.mem_append_right _ (List.mem_singleton_self _), ?_⟩
    simp [hst, hwin]
  unfold processWebhook
  rw [h1, h2]
  simp only [Bool.or_self, Bool.false_eq_true, if_false]
  rw [het, hoid]
  simp only [Option.getD_some]
  rw [hP2, hidem]
  simp only [if_true]

/-- C5 witness: the DONE webhook for order ORD7 delivered at `t1 = 100` and
again at `t2 = 200` — the second delivery returns the already-processed
outcome on the unchanged post-state of the first. -/
theorem duplicate_webhook_witness :
    processWebhook ((processWebhook webhookDB 100 doneWebhook).1) 200 doneWebhook =
      ((processWebhook webhookDB 100 doneWebhook).1,
       .ok { success := true, message := "Already processed (idempotent)" }) :=
  @duplicate_webhook_idempotent webhookDB 100 200 doneWebhook
    "PAYMENT_STATUS_CHANGED" "ORD7" "DONE"
    (by decide) (by decide) (by decide) (by decide) (by decide) (by decide)
    (by decide) (by decide)

/-- C3: in a committed run over a valid window with at least one eligible
payment, every merchant entry of the report satisfies exactly:
`totalSales` is the sum of the merchant group's payment amounts,
`commissionAmount = ⌊totalSales * 0.2⌋` in exact rational arithmetic,
`payoutAmount = totalSales - commissionAmount`, the two add back to
`totalSales` with no rounding leakage, and the group total is positive. -/
theorem settlement_group_arithmetic {env : RunEnv} {db : DB} {s e : Int}
    {db1 : DB} {r : SettlementReport}
    (hv : s < e) (hne : selectEligible db s e ≠ [])
    (h : runSettlementPeriod env db s e false = (db1, .ok r)) :
    ∀ en ∈ r.settlements,
      en.totalSales =
        ((storeGroup (selectEligible db s e) en.storeId).map (·.amount_total)).sum ∧
      en.commissionAmount = ⌊(en.totalSales : ℚ) * 0.2⌋ ∧
      en.payoutAmount = en.totalSales - en.commissionAmount ∧
      en.commissionAmount + en.payoutAmount = en.totalSales ∧
      0 < en.totalSales ∧
      en.paymentsCount = (storeGroup (selectEligible db s e) en.storeId).length := by
  have hne' : ¬(selectEligible db s e).isEmpty := by
    simpa [List.isEmpty_iff] using hne
  obtain ⟨acc, hps, _, _, _, _, hr⟩ := runSettlement_ok_elim h hne'
  have hsett : acc.settlements.map dropStatementId =
      simEntries (selectEligible db s e) (storeKeys (selectEligible db s e)) := by
    simpa using processStores_settlements hps
  intro en hen
  have henacc : en ∈ acc.settlements := by
    rw [hr] at hen
    exact hen
  have hdrop : dropStatementId en ∈
      simEntries (selectEligible db s e) (storeKeys (selectEligible db s e)) := by
    rw [← hsett]
    exact List.mem_map_of_mem _ henacc
  obtain ⟨k, hk, hsome⟩ := List.mem_filterMap.mp hdrop
  by_cases hneg : ((storeGroup (selectEligible db s e) k).map (·.amount_total)).sum ≤ 0
  · simp only [if_pos hneg] at hsome
    cases hsome
  · simp only [if_neg hneg, Option.some.injEq] at hsome
    have hstore : en.storeId = k := by
      have := congrArg SettlementEntry.storeId hsome
      exact this.symm
    have htot : en.totalSales =
        ((storeGroup (selectEligible db s e) k).map (·.amount_total)).sum := by
      have := congrArg SettlementEntry.totalSales hsome
      exact this.symm
    have hcom : en.commissionAmount =
        commissionOf ((storeGroup (selectEligible db s e) k).map (·.amount_total)).sum := by
      have := congrArg SettlementEntry.commissionAmount hsome
      exact this.symm
    have hpay : en.payoutAmount =
        ((storeGroup (selectEligible db s e) k).map (·.amount_total)).sum -
          commissionOf ((storeGroup (selectEligible db s e) k).map (·.amount_total)).sum := by
      have := congrArg SettlementEntry.payoutAmount hsome
      exact this.symm
    have hcnt : en.paymentsCount = (storeGroup (selectEligible db s e) k).length := by
      have := congrArg SettlementEntry.paymentsCount hsome
      exact this.symm
    rw [hstore]
    refine ⟨htot, ?_, ?_, ?_, ?_, hcnt⟩
    · rw [hcom, htot]
      exact commissionOf_floor _
    · rw [hpay, htot, hcom]
    · rw [hpay, hcom, htot]
      omega
    · rw [htot]
      omega

def c3RunDB : DB := (runSettlementPeriod quietEnv twoPaymentDB 0 100 false).1

def c3RunReport : SettlementReport :=
  { status := "success", totalPayments := 2, totalStatements := 1,
    successPaymentCount := 2, skippedPaymentCount := 0, totalPayout := 32000,
    totalCommission := 8000,
    settlements := [{ storeId := "M", statementId := some 1,
                      totalSales := 40000, commissionAmount := 8000,
                      payoutAmount := 32000, paymentsCount := 2 }] }

/-- The single merchant entry of the two-payment run's report. -/
def c3Entry : SettlementEntry :=
  { storeId := "M", statementId := some 1, totalSales := 40000,
    commissionAmount := 8000, payoutAmount := 32000, paymentsCount := 2 }

/-- C3 witness: the concrete two-payment scenario (15000 + 25000 → one
statement 40000/8000/32000). -/
theorem settlement_group_arithmetic_witness :
    c3Entry.totalSales =
      ((storeGroup (selectEligible twoPaymentDB 0 100) c3Entry.storeId).map
        (·.amount_total)).sum ∧
    c3Entry.commissionAmount = ⌊(c3Entry.totalSales : ℚ) * 0.2⌋ ∧
    c3Entry.payoutAmount = c3Entry.totalSales - c3Entry.commissionAmount ∧
    c3Entry.commissionAmount + c3Entry.payoutAmount = c3Entry.totalSales ∧
    0 < c3Entry.totalSales ∧
    c3Entry.paymentsCount =
      (storeGroup (selectEligible twoPaymentDB 0 100) c3Entry.storeId).length :=
  @settlement_group_arithmetic quietEnv twoPaymentDB 0 100 c3RunDB c3RunReport
    (by decide) (by decide) (by decide) c3Entry (by decide)

/-- C10: for the eligible payment list a committed run selects, the
mutating path produces exactly the per-merchant aggregates of the dry-run
computation `simulateSettlement`: the same entries (store, totalSales,
commissionAmount, payoutAmount, paymentsCount, in the same group order,
statement ids aside) and the same number of statements.  The race-free
hypothesis mirrors the claim's assumption; the aggregates agree because the
statement row is created from the group before the per-payment updates. -/
theorem simulate_refines_run {env : RunEnv} {db : DB} {s e : Int}
    {db1 : DB} {r : SettlementReport}
    (h : runSettlementPeriod env db s e false = (db1, .ok r))
    (hrace : ∀ p ∈ selectEligible db s e, env.raceSettled p.id = false) :
    r.settlements.map dropStatementId =
      (simulateSettlement (selectEligible db s e)).settlements ∧
    r.totalStatements =
      (simulateSettlement (selectEligible db s e)).totalStatements := by
  by_cases hE : (selectEligible db s e).isEmpty
  · obtain ⟨_, hr⟩ := runSettlement_noop_elim h hE
    have hsel : selectEligible db s e = [] := List.isEmpty_iff.mp hE
    rw [hr, hsel]
    exact ⟨rfl, rfl⟩
  · obtain ⟨acc, hps, _, _, _, _, hr⟩ := runSettlement_ok_elim h hE
    have hsett : acc.settlements.map dropStatementId =
        simEntries (selectEligible db s e) (storeKeys (selectEligible db s e)) := by
      simpa using processStores_settlements hps
    constructor
    · rw [hr]
      exact hsett
    · rw [hr]
      show acc.settlements.length =
        (simEntries (selectEligible db s e) (storeKeys (selectEligible db s e))).length
      rw [← hsett, List.length_map]

/-- C10 witness: the two-payment scenario — the committed run's entries,
with their statement ids forgotten, are exactly the dry-run entries. -/
theorem simulate_refines_run_witness :
    c3RunReport.settlements.map dropStatementId =
      (simulateSettlement (selectEligible twoPaymentDB 0 100)).settlements ∧
    c3RunReport.totalStatements =
      (simulateSettlement (selectEligible twoPaymentDB 0 100)).totalStatements :=
  @simulate_refines_run quietEnv twoPaymentDB 0 100 c3RunDB c3RunReport
    (by decide) (by decide)

/-- C8: a merchant group whose window total is ≤ 0 yields no statement —
the rows of `settlement_statements` with that store are exactly the
pre-existing ones — its payments survive the committed run byte-for-byte
(still `is_settled = 0`, no statement reference), and the run counters
count every non-positive group member (plus every race-lost payment of the
positive groups) as skipped. -/
theorem nonpositive_group_skipped {env : RunEnv} {db : DB} {s e : Int}
    {db1 : DB} {r : SettlementReport} {k : String}
    (hnodup : (db.payments.map (·.id)).Nodup)
    (hitems : ∀ it ∈ db.settlement_items, it.statement_id < db.nextStatementId)
    (hk : k ∈ storeKeys (selectEligible db s e))
    (hneg : groupTotal (selectEligible db s e) k ≤ 0)
    (h : runSettlementPeriod env db s e false = (db1, .ok r)) :
    (db1.settlement_statements.filter (fun st => st.store_id == k) =
      db.settlement_statements.filter (fun st => st.store_id == k)) ∧
    (∀ p ∈ storeGroup (selectEligible db s e) k,
      db1.payments.filter (fun q => q.id == p.id) = [p]) ∧
    r.skippedPaymentCount =
      skippedOf env (selectEligible db s e) (storeKeys (selectEligible db s e)) := by
  have hne' : ¬(selectEligible db s e).isEmpty := by
    intro hE
    rw [List.isEmpty_iff.mp hE] at hk
    exact absurd hk (List.not_mem_nil k)
  obtain ⟨acc, hps, hpay1, hstm1, hitm1, hnext1, hr⟩ := runSettlement_ok_elim h hne'
  refine ⟨?_, ?_, ?_⟩
  · -- (a) no new statement for the non-positive store
    have hWF0 : ∀ it ∈ (insertSkeletonLog db s e).settlement_items,
        it.statement_id < (insertSkeletonLog db s e).nextStatementId := hitems
    obtain ⟨news, hstAppend0, hfacts0, _, _⟩ := processStores_statements hps hWF0
    have hstAppend : acc.db.settlement_statements =
        db.settlement_statements ++ news := hstAppend0
    have hfacts : ∀ st ∈ news, StatementFacts env (selectEligible db s e) s e
        acc.db db.nextStatementId (storeKeys (selectEligible db s e)) st := hfacts0
    rw [hstm1, hstAppend, List.filter_append]
    have hnil : news.filter (fun st => st.store_id == k) = [] := by
      rw [List.filter_eq_nil_iff]
      intro st hst hcontra
      obtain ⟨_, _, hpos, _⟩ := hfacts st hst
      rw [beq_iff_eq.mp hcontra] at hpos
      exact hpos hneg
    rw [hnil, List.append_nil]
  · -- (b) the group's payment rows are untouched
    intro p hp
    have hpSel : p ∈ selectEligible db s e := List.mem_of_mem_filter hp
    have hpDb : p ∈ db.payments := List.mem_of_mem_filter hpSel
    have hpStore : p.store_id = k := beq_iff_eq.mp (List.mem_filter.mp hp).2
    obtain ⟨hmapPay0, _⟩ := processStores_payments hps
    have hmap : acc.db.payments = db.payments.map
        (chainStores env (selectEligible db s e)
          (storeKeys (selectEligible db s e)) db.nextStatementId) := hmapPay0
    rw [hpay1, hmap, List.filter_map]
    have hpred : ∀ q ∈ db.payments,
        ((fun q => q.id == p.id) ∘
          chainStores env (selectEligible db s e)
            (storeKeys (selectEligible db s e)) db.nextStatementId) q =
          (q.id == p.id) := by
      intro q _
      simp only [Function.comp]
      rw [chainStores_id_preserved]
    rw [List.filter_congr hpred, filter_ids_single hnodup hpDb]
    have hΦp : chainStores env (selectEligible db s e)
        (storeKeys (selectEligible db s e)) db.nextStatementId p = p := by
      apply chainStores_untouched
      intro k2 hk2 hpos2 p2 hp2 hnorace2 hid2
      have hp2Db : p2 ∈ db.payments :=
        List.mem_of_mem_filter (List.mem_of_mem_filter hp2)
      have hpp : p2 = p := eq_of_mem_of_id_eq hnodup hp2Db hpDb hid2
      subst hpp
      have hk2eq : k2 = k := by
        rw [← beq_iff_eq.mp (List.mem_filter.mp hp2).2, hpStore]
      rw [hk2eq] at hpos2
      exact hpos2 hneg
    simp [hΦp]
  · -- (c) the skipped counter
    rw [hr]
    show acc.skippedPaymentCount = _
    have := processStores_skipped hps
    simpa using this

def c8RunDB : DB := (runSettlementPeriod quietEnv zeroAmountDB 0 100 false).1

def c8RunReport : SettlementReport :=
  { status := "success", totalPayments := 1, totalStatements := 0,
    successPaymentCount := 0, skippedPaymentCount := 1, totalPayout := 0,
    totalCommission := 0, settlements := [] }

/-- C8 witness: one SUCCESS payment of amount 0 — the committed run creates
no statement for its store, leaves the row unsettled and counts it as
skipped. -/
theorem nonpositive_group_skipped_witness :
    (c8RunDB.settlement_statements.filter (fun st => st.store_id == "Z") =
      zeroAmountDB.settlement_statements.filter (fun st => st.store_id == "Z")) ∧
    (∀ p ∈ storeGroup (selectEligible zeroAmountDB 0 100) "Z",
      c8RunDB.payments.filter (fun q => q.id == p.id) = [p]) ∧
    c8RunReport.skippedPaymentCount =
      skippedOf quietEnv (selectEligible zeroAmountDB 0 100)
        (storeKeys (selectEligible zeroAmountDB 0 100)) :=
  @nonpositive_group_skipped quietEnv zeroAmountDB 0 100 c8RunDB c8RunReport "Z"
    (by decide) (by decide) (by decide) (by decide) (by decide)

/-- C2 counterexample: merchant M has payments 15000 and 25000; a
concurrent process already settled payment 2, so its conditional UPDATE
affects zero rows and the run takes the race-skip path for it — yet the
committed statement's `total_sales` is 40000 while its linked
`settlement_items` sum only to 15000: the skipped amount is counted in the
payout without a corresponding item. -/
theorem race_skip_unbalances_statement :
    ((runSettlementPeriod raceOnP2Env twoPaymentDB 0 100 false).1.settlement_statements.map
      (fun st => (st.id, st.total_sales))) = [(1, 40000)] ∧
    itemsSum (runSettlementPeriod raceOnP2Env twoPaymentDB 0 100 false).1 1 = 15000 ∧
    (runSettlementPeriod raceOnP2Env twoPaymentDB 0 100 false).2 =
      .ok { status := "success", totalPayments := 2, totalStatements := 1,
            successPaymentCount := 1, skippedPaymentCount := 1,
            totalPayout := 32000, totalCommission := 8000,
            settlements := [{ storeId := "M", statementId := some 1,
                              totalSales := 40000, commissionAmount := 8000,
                              payoutAmount := 32000, paymentsCount := 2 }] } ∧
    (40000 : Int) ≠ 15000 := by
  decide

/-- C2 (amended): for every statement a committed run creates, its
`total_sales` equals the sum of its linked items' amounts PLUS the amounts
of the group's race-skipped payments; the claimed equality
`total_sales = Σ item amounts` therefore holds exactly when no payment of
the group takes the race-skip path. -/
theorem statement_total_vs_items {env : RunEnv} {db : DB} {s e : Int}
    {db1 : DB} {r : SettlementReport}
    (hitems : ∀ it ∈ db.settlement_items, it.statement_id < db.nextStatementId)
    (h : runSettlementPeriod env db s e false = (db1, .ok r)) :
    ∃ news, db1.settlement_statements = db.settlement_statements ++ news ∧
      ∀ st ∈ news,
        itemsSum db1 st.id +
          racedAmount env (storeGroup (selectEligible db s e) st.store_id) =
          st.total_sales ∧
        ((∀ p ∈ storeGroup (selectEligible db s e) st.store_id,
            env.raceSettled p.id = false) →
          itemsSum db1 st.id = st.total_sales) := by
  by_cases hE : (selectEligible db s e).isEmpty
  · obtain ⟨hdb, _⟩ := runSettlement_noop_elim h hE
    exact ⟨[], by rw [hdb]; exact (List.append_nil _).symm,
           fun st hst => absurd hst (List.not_mem_nil st)⟩
  · obtain ⟨acc, hps, hpay1, hstm1, hitm1, hnext1, hr⟩ := runSettlement_ok_elim h hE
    have hWF0 : ∀ it ∈ (insertSkeletonLog db s e).settlement_items,
        it.statement_id < (insertSkeletonLog db s e).nextStatementId := hitems
    obtain ⟨news, hstAppend0, hfacts0, _, _⟩ := processStores_statements hps hWF0
    have hstAppend : acc.db.settlement_statements =
        db.settlement_statements ++ news := hstAppend0
    have hfacts : ∀ st ∈ news, StatementFacts env (selectEligible db s e) s e
        acc.db db.nextStatementId (storeKeys (selectEligible db s e)) st := hfacts0
    refine ⟨news, by rw [hstm1]; exact hstAppend, ?_⟩
    intro st hst
    obtain ⟨_, _, _, _, _, _, _, _, _, _, _, hsum⟩ := hfacts st hst
    have hitemsEq : itemsSum db1 st.id = itemsSum acc.db st.id := by
      rw [itemsSum_eq, hitm1, ← itemsSum_eq]
    constructor
    · rw [hitemsEq, hsum]
      omega
    · intro hrf
      rw [hitemsEq, hsum, racedAmount_zero hrf]
      omega

def c2RunDB : DB := (runSettlementPeriod raceOnP2Env twoPaymentDB 0 100 false).1

def c2RunReport : SettlementReport :=
  { status := "success", totalPayments := 2, totalStatements := 1,
    successPaymentCount := 1, skippedPaymentCount := 1, totalPayout := 32000,
    totalCommission := 8000,
    settlements := [{ storeId := "M", statementId := some 1,
                      totalSales := 40000, commissionAmount := 8000,
                      payoutAmount := 32000, paymentsCount := 2 }] }

/-- C2 witness: under the race on payment 2, the new statement satisfies
`items (15000) + raced (25000) = total_sales (40000)`. -/
theorem statement_total_vs_items_witness :
    ∃ news, c2RunDB.settlement_statements =
        twoPaymentDB.settlement_statements ++ news ∧
      ∀ st ∈ news,
        itemsSum c2RunDB st.id +
          racedAmount raceOnP2Env
            (storeGroup (selectEligible twoPaymentDB 0 100) st.store_id) =
          st.total_sales ∧
        ((∀ p ∈ storeGroup (selectEligible twoPaymentDB 0 100) st.store_id,
            raceOnP2Env.raceSettled p.id = false) →
          itemsSum c2RunDB st.id = st.total_sales) :=
  @statement_total_vs_items raceOnP2Env twoPaymentDB 0 100 c2RunDB c2RunReport
    (by decide) (by decide)

/-- C4 counterexample: one SUCCESS payment of amount 0 (schema-valid:
`amount_total INT UNSIGNED`, reservation price defaults to 0).  The first
run commits with status `success` and zero statements, but leaves the
zero-amount group unsettled — so the second run over the identical window
selects that payment again and returns a `success` report with
`totalPayments = 1`, not the noop report the claim promises. -/
theorem rerun_after_nonpositive_group_not_noop :
    (runSettlementPeriod quietEnv zeroAmountDB 0 100 false).2 =
      .ok { status := "success", totalPayments := 1, totalStatements := 0,
            successPaymentCount := 0, skippedPaymentCount := 1,
            totalPayout := 0, totalCommission := 0, settlements := [] } ∧
    (runSettlementPeriod quietEnv
        ((runSettlementPeriod quietEnv zeroAmountDB 0 100 false).1) 0 100 false).2 =
      .ok { status := "success", totalPayments := 1, totalStatements := 0,
            successPaymentCount := 0, skippedPaymentCount := 1,
            totalPayout := 0, totalCommission := 0, settlements := [] } ∧
    selectEligible
        ((runSettlementPeriod quietEnv zeroAmountDB 0 100 false).1) 0 100 ≠ [] ∧
    ("success" : String) ≠ "noop" := by
  decide

/-- C4 (amended): after a committed race-free run, a second run over the
identical window creates zero new statements and zero new items; if
additionally every merchant group of the first run had a positive total
(so the first run left no eligible payment unsettled), the second run
selects no eligible payments and returns the noop report. -/
theorem rerun_after_success {env env2 : RunEnv} {db : DB} {s e : Int}
    {db1 : DB} {r1 : SettlementReport}
    (hnodup : (db.payments.map (·.id)).Nodup)
    (hrace : ∀ i, env.raceSettled i = false)
    (h1 : runSettlementPeriod env db s e false = (db1, .ok r1)) :
    ((runSettlementPeriod env2 db1 s e false).1.settlement_statements =
      db1.settlement_statements) ∧
    ((runSettlementPeriod env2 db1 s e false).1.settlement_items =
      db1.settlement_items) ∧
    ((∀ k ∈ storeKeys (selectEligible db s e),
        ¬ groupTotal (selectEligible db s e) k ≤ 0) →
      selectEligible db1 s e = [] ∧
      (runSettlementPeriod env2 db1 s e false).2 =
        .ok { status := "noop", totalPayments := 0, totalStatements := 0,
              settlements := [] }) := by
  have hv : ¬ e ≤ s := run_ok_not_le h1
  -- a second run over an empty eligible set is the noop commit
  have mkNoopFst : ∀ d : DB, selectEligible d s e = [] →
      (runSettlementPeriod env2 d s e false).1.settlement_statements =
        d.settlement_statements ∧
      (runSettlementPeriod env2 d s e false).1.settlement_items =
        d.settlement_items ∧
      (runSettlementPeriod env2 d s e false).2 =
        .ok { status := "noop", totalPayments := 0, totalStatements := 0,
              settlements := [] } := by
    intro d hd
    rw [runSettlementPeriod, if_neg hv]
    simp only [runSettlementBody]
    rw [if_pos (show (selectEligible d s e).isEmpty = true by rw [hd]; rfl)]
    exact ⟨rfl, rfl, rfl⟩
  by_cases hE : (selectEligible db s e).isEmpty
  · -- the first run was itself a noop: nothing changed, so is the second
    obtain ⟨hdb, _⟩ := runSettlement_noop_elim h1 hE
    have hsel1 : selectEligible db1 s e = [] := by
      show db1.payments.filter (isEligible s e) = []
      rw [hdb]
      exact List.isEmpty_iff.mp hE
    obtain ⟨ha, hb, hc⟩ := mkNoopFst db1 hsel1
    exact ⟨ha, hb, fun _ => ⟨hsel1, hc⟩⟩
  · obtain ⟨acc, hps, hpay1, hstm1, hitm1, hnext1, hr⟩ := runSettlement_ok_elim h1 hE
    obtain ⟨hmap0, _⟩ := processStores_payments hps
    have hmap : acc.db.payments = db.payments.map
        (chainStores env (selectEligible db s e)
          (storeKeys (selectEligible db s e)) db.nextStatementId) := hmap0
    -- rows of ineligible or non-positive-group payments are untouched
    have huntouched : ∀ q ∈ db.payments,
        (isEligible s e q = false ∨ groupTotal (selectEligible db s e) q.store_id ≤ 0) →
        chainStores env (selectEligible db s e)
          (storeKeys (selectEligible db s e)) db.nextStatementId q = q := by
      intro q hq hcase
      apply chainStores_untouched
      intro k2 hk2 hpos2 p2 hp2 _ hid2
      have hp2Db : p2 ∈ db.payments :=
        List.mem_of_mem_filter (List.mem_of_mem_filter hp2)
      have hpp : p2 = q := eq_of_mem_of_id_eq hnodup hp2Db hq hid2
      subst hpp
      have hp2Sel : p2 ∈ selectEligible db s e := List.mem_of_mem_filter hp2
      have hp2Elig : isEligible s e p2 = true := (List.mem_filter.mp hp2Sel).2
      have hp2Store : p2.store_id = k2 := beq_iff_eq.mp (List.mem_filter.mp hp2).2
      rcases hcase with hcase | hcase
      · rw [hp2Elig] at hcase
        cases hcase
      · rw [hp2Store] at hcase
        exact hpos2 hcase
    -- pointwise eligibility of the final rows
    have hrowElig : ∀ q ∈ db.payments,
        isEligible s e
          (chainStores env (selectEligible db s e)
            (storeKeys (selectEligible db s e)) db.nextStatementId q) =
          (isEligible s e q &&
            decide (groupTotal (selectEligible db s e) q.store_id ≤ 0)) := by
      intro q hq
      by_cases he : isEligible s e q
      · have hqSel : q ∈ selectEligible db s e := List.mem_filter.mpr ⟨hq, he⟩
        by_cases hneg : groupTotal (selectEligible db s e) q.store_id ≤ 0
        · rw [huntouched q hq (Or.inr hneg), he]
          simp [hneg]
        · have hksel : q.store_id ∈ storeKeys (selectEligible db s e) :=
            store_mem_storeKeys hqSel
          have hqunsettled : q.is_settled = false := by
            simp only [isEligible, Bool.and_eq_true, beq_iff_eq] at he
            exact he.1.2
          have hndSel : ((selectEligible db s e).map (·.id)).Nodup :=
            hnodup.sublist ((List.filter_sublist db.payments).map (·.id))
          obtain ⟨sid, hΦ⟩ := chainStores_hit env hqunsettled (hrace q.id)
            hndSel hqSel (storeKeys (selectEligible db s e)) db.nextStatementId
            hksel hneg
          rw [hΦ]
          have hsettledRow : isEligible s e
              { q with is_settled := true,
                       settlement_statement_id := some sid } = false := by
            simp [isEligible]
          rw [hsettledRow, he]
          simp [hneg]
      · have he' : isEligible s e q = false := by
          cases hc : isEligible s e q
          · rfl
          · exact absurd hc he
        rw [huntouched q hq (Or.inl he'), he']
        simp
    -- the second run's claim query returns exactly the non-positive groups
    have hsel1 : selectEligible db1 s e =
        db.payments.filter (fun q => isEligible s e q &&
          decide (groupTotal (selectEligible db s e) q.store_id ≤ 0)) := by
      show db1.payments.filter (isEligible s e) = _
      rw [hpay1, hmap, List.filter_map]
      have hcomp : ∀ q ∈ db.payments,
          ((fun x => isEligible s e x) ∘
            chainStores env (selectEligible db s e)
              (storeKeys (selectEligible db s e)) db.nextStatementId) q =
            (isEligible s e q &&
              decide (groupTotal (selectEligible db s e) q.store_id ≤ 0)) := by
        intro q hq
        simp only [Function.comp]
        exact hrowElig q hq
      rw [List.filter_congr hcomp]
      have hid : ∀ q ∈ db.payments.filter (fun q => isEligible s e q &&
          decide (groupTotal (selectEligible db s e) q.store_id ≤ 0)),
          chainStores env (selectEligible db s e)
            (storeKeys (selectEligible db s e)) db.nextStatementId q = q := by
        intro q hq
        obtain ⟨hqDb, hqP⟩ := List.mem_filter.mp hq
        simp only [Bool.and_eq_true, decide_eq_true_eq] at hqP
        exact huntouched q hqDb (Or.inr hqP.2)
      rw [List.map_congr_left hid, List.map_id']
    -- every group the second claim query returns is still non-positive
    have hall : ∀ k2 ∈ storeKeys (selectEligible db1 s e),
        ((storeGroup (selectEligible db1 s e) k2).map (·.amount_total)).sum ≤ 0 := by
      intro k2 hk2
      obtain ⟨q0, hq0sel, hq0store⟩ := storeKeys_mem_exists hk2
      have hq0sel' := hq0sel
      rw [hsel1] at hq0sel'
      obtain ⟨hq0Db, hq0P⟩ := List.mem_filter.mp hq0sel'
      simp only [Bool.and_eq_true, decide_eq_true_eq] at hq0P
      have hnegk2 : groupTotal (selectEligible db s e) k2 ≤ 0 := by
        rw [← hq0store]
        exact hq0P.2
      have hgroups : storeGroup (selectEligible db1 s e) k2 =
          storeGroup (selectEligible db s e) k2 := by
        show (selectEligible db1 s e).filter (·.store_id == k2) =
          (selectEligible db s e).filter (·.store_id == k2)
        rw [hsel1]
        show (db.payments.filter _).filter _ =
          (db.payments.filter (isEligible s e)).filter _
        rw [List.filter_filter, List.filter_filter]
        apply List.filter_congr
        intro q _
        by_cases hstore : q.store_id = k2
        · have hdec : decide (groupTotal (selectEligible db s e) q.store_id ≤ 0) = true := by
            rw [hstore]
            exact decide_eq_true hnegk2
          rw [hdec, Bool.and_true]
        · have hb : (q.store_id == k2) = false := beq_eq_false_iff_ne.mpr hstore
          rw [hb, Bool.false_and, Bool.false_and]
      rw [hgroups]
      exact hnegk2
    by_cases hE1 : (selectEligible db1 s e).isEmpty
    · have hsel1nil : selectEligible db1 s e = [] := List.isEmpty_iff.mp hE1
      obtain ⟨ha, hb, hc⟩ := mkNoopFst db1 hsel1nil
      exact ⟨ha, hb, fun _ => ⟨hsel1nil, hc⟩⟩
    · obtain ⟨n, hn⟩ := @processStores_all_nonpos env2 db1.nextLogId s e
        (selectEligible db1 s e) (storeKeys (selectEligible db1 s e))
        { db := insertSkeletonLog db1 s e, successPaymentCount := 0,
          skippedPaymentCount := 0, totalCommission := 0, totalPayout := 0,
          settlements := [] } hall
      refine ⟨?_, ?_, ?_⟩
      · rw [runSettlementPeriod, if_neg hv]
        simp only [runSettlementBody]
        rw [if_neg hE1]
        simp only [Bool.false_eq_true, if_false]
        rw [hn]
        rfl
      · rw [runSettlementPeriod, if_neg hv]
        simp only [runSettlementBody]
        rw [if_neg hE1]
        simp only [Bool.false_eq_true, if_false]
        rw [hn]
        rfl
      · intro hallpos
        have hsel1nil : selectEligible db1 s e = [] := by
          rw [hsel1, List.filter_eq_nil_iff]
          intro q hq hcontra
          simp only [Bool.and_eq_true, decide_eq_true_eq] at hcontra
          exact hallpos q.store_id
            (store_mem_storeKeys (List.mem_filter.mpr ⟨hq, hcontra.1⟩)) hcontra.2
        exact absurd
          (show (selectEligible db1 s e).isEmpty = true by rw [hsel1nil]; rfl) hE1

/-- C4 witness: the race-free run on `twoPaymentDB` (one positive group,
total 40000) commits, and the second run over the same window selects
nothing, adds no statement and no item, and returns the noop report. -/
theorem rerun_after_success_witness :
    ((runSettlementPeriod quietEnv c3RunDB 0 100 false).1.settlement_statements =
      c3RunDB.settlement_statements) ∧
    ((runSettlementPeriod quietEnv c3RunDB 0 100 false).1.settlement_items =
      c3RunDB.settlement_items) ∧
    ((∀ k ∈ storeKeys (selectEligible twoPaymentDB 0 100),
        ¬ groupTotal (selectEligible twoPaymentDB 0 100) k ≤ 0) →
      selectEligible c3RunDB 0 100 = [] ∧
      (runSettlementPeriod quietEnv c3RunDB 0 100 false).2 =
        .ok { status := "noop", totalPayments := 0, totalStatements := 0,
              settlements := [] }) :=
  @rerun_after_success quietEnv quietEnv twoPaymentDB 0 100 c3RunDB c3RunReport
    (by decide) (fun _ => rfl) (by decide)

end LitServer
